import Mathlib

/-!
Verification development for the Telegram Tai/Xiu betting bot
(repository files src/bot.py and src/app.py).

The Python program is shallowly embedded below.  Python dictionaries are
modelled as association lists over natural-number keys (Telegram user ids
and round ids are integers; the program uses their decimal strings as
dictionary keys, which is a bijective renaming).  Python integers are
modelled as Int (balances, which src/bot.py can drive negative) or Nat
(stakes and request amounts, which are parsed from digit-only regexes).
Python floating point rounding in expressions such as
round(amt * 1.97) is modelled exactly over the integers: round is the
round-half-to-even function applied to the exact rational a / b, written
rhe a b below.  Randomness (random.randint, random.random) is modelled by
an explicit stream of natural numbers rng : Nat -> Nat, each die roll
being rng i % 6 + 1, and by an explicit Boolean coin for the biased side
choice.  Wall-clock time is passed in as an explicit now argument.
Persistence (save_data) and chat transport are identity effects and are
not modelled.
-/

set_option autoImplicit false

namespace Bot

/-- Betting side: T models the Python string Tai (over), X models Xiu (under). -/
inductive Side where
  | T
  | X
  deriving DecidableEq, Repr

/-- Round status; opened models the Python string valued status open. -/
inductive Status where
  | idle
  | opened
  | closed
  deriving DecidableEq, Repr

/-- Status of a deposit or withdraw request. -/
inductive ReqStatus where
  | pending
  | approved
  | denied
  deriving DecidableEq, Repr

/-- Per-user record, src/bot.py ensure_user (lines 95-104). -/
structure UserInfo where
  balance : Int
  first_bonus_given : Bool
  streak : Nat
  best_streak : Nat
  deriving DecidableEq, Repr

/-- A single bet: side and stake, src/bot.py line 344. -/
structure Bet where
  side : Side
  amount : Nat
  deriving DecidableEq, Repr

/-- Deposit or withdraw request, src/bot.py lines 386 and 417. -/
structure Request where
  id : Nat
  user_id : Nat
  amount : Nat
  status : ReqStatus
  admin_id : Option Nat
  deriving DecidableEq, Repr

/-- The round sub-record, src/bot.py default_data line 54.  The bias value
is a pair of floats in Python; only its presence is ever inspected
(line 165), and the weighted coin flip it drives is modelled by an explicit
Boolean input, so bias is modelled as a Bool flag. -/
structure RoundInfo where
  id : Nat
  status : Status
  scheduled_roll_ts : Option Nat
  forced_next : Option Side
  bias : Bool
  deriving DecidableEq, Repr

/-- History record of a resolved round, src/bot.py lines 234-245. -/
structure HistRec where
  id : Nat
  timestamp : Nat
  dice : List Nat
  total : Nat
  side : Side
  bets : List (Nat × Bet)
  payouts : List (Nat × Nat)
  pot_before : Nat
  pot_after : Nat
  distributed_from_pot : Nat
  deriving DecidableEq, Repr

/-- The whole persistent state, src/bot.py default_data (lines 51-59). -/
structure State where
  users : List (Nat × UserInfo)
  bets : List (Nat × List (Nat × Bet))
  round : RoundInfo
  history : List HistRec
  pot : Nat
  withdraw_requests : List Request
  deposit_requests : List Request
  deriving DecidableEq, Repr

/-- Dictionary read: first entry with the given key, as in a Python dict. -/
def getA {α : Type} (k : Nat) : List (Nat × α) → Option α
  | [] => none
  | p :: t => if p.1 = k then some p.2 else getA k t

/-- Dictionary write d[k] = v: replaces the entry if the key is present,
otherwise appends at the end (Python dicts keep insertion order). -/
def setA {α : Type} (k : Nat) (v : α) : List (Nat × α) → List (Nat × α)
  | [] => [(k, v)]
  | p :: t => if p.1 = k then (k, v) :: t else p :: setA k v t

/-- In-place update of the value at a key, as in d[k][field] = e. -/
def modifyA {α : Type} (k : Nat) (f : α → α) : List (Nat × α) → List (Nat × α)
  | [] => []
  | p :: t => if p.1 = k then (k, f p.2) :: t else p :: modifyA k f t

/-- Dictionary removal d.pop(k, None). -/
def removeA {α : Type} (k : Nat) : List (Nat × α) → List (Nat × α)
  | [] => []
  | p :: t => if p.1 = k then t else p :: removeA k t

/-- INITIAL_BONUS, src/bot.py line 45. -/
def INITIAL_BONUS : Int := 10000

/-- MAX_BONUS_BET, src/bot.py line 46. -/
def MAX_BONUS_BET : Nat := 1000

/-- ROLL_INTERVAL default, src/bot.py line 42. -/
def ROLL_INTERVAL : Nat := 60

/-- The fresh user record created by ensure_user, src/bot.py lines 98-104. -/
def defaultUser : UserInfo :=
  { balance := 0, first_bonus_given := false, streak := 0, best_streak := 0 }

/-- Round-half-to-even of the exact rational a / b (b positive), the
behaviour of the Python builtin round on the ratio a / b.  The program
only ever rounds products of nonnegative integers with the literals 1.97,
0.97 and 0.30 and ratios of nonnegative integers, all modelled exactly. -/
def rhe (a b : Nat) : Nat :=
  let d := a / b
  let r := a % b
  if 2 * r < b then d
  else if b < 2 * r then d + 1
  else if d % 2 = 0 then d else d + 1

/-- ensure_user, src/bot.py lines 95-104: lazily create the user record. -/
def ensure_user (s : State) (u : Nat) : State :=
  if (getA u s.users).isSome then s
  else { s with users := s.users ++ [(u, defaultUser)] }

/-- give_first_bonus_if_needed, src/bot.py lines 106-115. -/
def give_first_bonus_if_needed (s : State) (u : Nat) : Bool × State :=
  let s1 := ensure_user s u
  match getA u s1.users with
  | some info =>
    if info.first_bonus_given then (false, s1)
    else
      let users2 := modifyA u (fun i =>
        { i with balance := i.balance + INITIAL_BONUS, first_bonus_given := true }) s1.users
      (true, { s1 with users := users2 })
  | none => (false, s1)

/-- add_balance, src/bot.py lines 117-120. -/
def add_balance (s : State) (u : Nat) (amount : Int) : State :=
  let s1 := ensure_user s u
  { s1 with users := modifyA u (fun i => { i with balance := i.balance + amount }) s1.users }

/-- sub_balance, src/bot.py lines 122-125.  Note: there is no
insufficient-funds check here; the subtraction is unconditional. -/
def sub_balance (s : State) (u : Nat) (amount : Int) : State :=
  let s1 := ensure_user s u
  { s1 with users := modifyA u (fun i => { i with balance := i.balance - amount }) s1.users }

/-- get_balance, src/bot.py lines 127-129 (the ensure_user call there only
creates the record with balance 0, which the default of 0 reproduces). -/
def get_balance (s : State) (u : Nat) : Int :=
  ((getA u s.users).map UserInfo.balance).getD 0

/-- One uniform die roll: random.randint(1,6) at position i of the stream. -/
def die (rng : Nat → Nat) (i : Nat) : Nat := rng i % 6 + 1

/-- One triple of dice, attempt number k of the stream,
src/bot.py line 172 and line 260. -/
def rollTriple (rng : Nat → Nat) (k : Nat) : List Nat :=
  [die rng (3 * k), die rng (3 * k + 1), die rng (3 * k + 2)]

/-- Side of a dice total, src/bot.py lines 174 and 262:
T when the total is in [11,17], X otherwise. -/
def resolve_side (total : Nat) : Side :=
  if 11 ≤ total ∧ total ≤ 17 then Side.T else Side.X

/-- The bounded retry loop inside generate_dice_for_side, src/bot.py
lines 259-264: try attempts k, k+1, ... while fuel lasts, returning the
first triple whose total maps to the requested side. -/
def genFrom (side : Side) (rng : Nat → Nat) (k : Nat) : Nat → Option (List Nat)
  | 0 => none
  | fuel + 1 =>
    let d := rollTriple rng k
    if resolve_side (d.sum) = side then some d
    else genFrom side rng (k + 1) fuel

/-- generate_dice_for_side, src/bot.py lines 257-266: 200 constrained
attempts, then one unconstrained fallback roll (attempt number 200). -/
def generate_dice_for_side (side : Side) (rng : Nat → Nat) : List Nat :=
  match genFrom side rng 0 200 with
  | some d => d
  | none => rollTriple rng 200

/-- Dice selection of close_betting_and_roll, src/bot.py lines 156-172:
forced side, else biased coin, else one plain roll. -/
def diceFor (r : RoundInfo) (rng : Nat → Nat) (coin : Bool) : List Nat :=
  match r.forced_next with
  | some sd => generate_dice_for_side sd rng
  | none =>
    if r.bias then generate_dice_for_side (if coin then Side.T else Side.X) rng
    else rollTriple rng 0

/-- Reasons a bet command is refused, src/bot.py lines 323-339. -/
inductive BetReject where
  | notOpen
  | bonusCap
  | invalidAmount
  | insufficientFunds
  deriving DecidableEq, Repr

/-- handle_bet_command, src/bot.py lines 309-346, after the regex parse:
uid is the caller, side and amt the parsed side and stake.  Checks happen
in source order: betting window, bonus stake cap, positive amount,
sufficient balance; on success the stake is debited immediately and the
bet recorded for the current round, overwriting any earlier bet by the
same user (line 344). -/
def handle_bet_command (s : State) (uid : Nat) (side : Side) (amt : Nat) :
    Option BetReject × State :=
  if s.round.status ≠ Status.opened then (some BetReject.notOpen, s)
  else
    let s1 := ensure_user s uid
    let bal := get_balance s1 uid
    if ((getA uid s1.users).getD defaultUser).first_bonus_given = true
        ∧ bal = INITIAL_BONUS ∧ MAX_BONUS_BET < amt then
      (some BetReject.bonusCap, s1)
    else if amt = 0 then (some BetReject.invalidAmount, s1)
    else if bal < (amt : Int) then (some BetReject.insufficientFunds, s1)
    else
      let s2 := sub_balance s1 uid (amt : Int)
      let cur := (getA s.round.id s2.bets).getD []
      (none, { s2 with bets := setA s.round.id (setA uid { side := side, amount := amt } cur) s2.bets })

/-- open_new_round, src/bot.py lines 137-146: unconditionally increments
the round id, marks the round open, schedules the roll and creates an
empty bet table for the new round; returns the new id. -/
def open_new_round (s : State) (now : Nat) : Nat × State :=
  let rid := s.round.id + 1
  let r1 := { s.round with
              id := rid,
              status := Status.opened,
              scheduled_roll_ts := some (now + ROLL_INTERVAL) }
  let s1 := { s with round := r1 }
  (rid, { s1 with bets := setA rid [] s1.bets })

/-- Winners of a round, src/bot.py line 181: bettors whose side equals the
resolved side, in bet-table order (dict keys are unique, so filtering the
entries is the same as iterating keys and looking each one up). -/
def winners_of (bfr : List (Nat × Bet)) (side : Side) : List Nat :=
  (bfr.filter (fun p => p.2.side = side)).map (fun p => p.1)

/-- Payout table, src/bot.py lines 190-197: each winner gets
round(stake * 1.97), each loser 0. -/
def payouts_of (bfr : List (Nat × Bet)) (side : Side) : List (Nat × Nat) :=
  bfr.map (fun p => (p.1, if p.2.side = side then rhe (197 * p.2.amount) 100 else 0))

/-- Total losing stakes, src/bot.py line 188. -/
def losers_total_stake (bfr : List (Nat × Bet)) (side : Side) : Nat :=
  ((bfr.filter (fun p => ¬ p.2.side = side)).map (fun p => p.2.amount)).sum

/-- Total winning stakes, src/bot.py line 187. -/
def winners_total_stake (bfr : List (Nat × Bet)) (side : Side) : Nat :=
  ((bfr.filter (fun p => p.2.side = side)).map (fun p => p.2.amount)).sum

/-- Aggregate winner profit, src/bot.py line 202:
sum over winners of round(stake * 0.97). -/
def winners_profit (bfr : List (Nat × Bet)) (side : Side) : Nat :=
  ((bfr.filter (fun p => p.2.side = side)).map (fun p => rhe (97 * p.2.amount) 100)).sum

/-- The streak update of a winner, src/bot.py lines 213-214: the streak is
incremented and the best streak compared against the incremented streak. -/
def win_update (i : UserInfo) : UserInfo :=
  { i with streak := i.streak + 1, best_streak := max i.best_streak (i.streak + 1) }

/-- The streak reset of a loser, src/bot.py line 218. -/
def lose_update (i : UserInfo) : UserInfo :=
  { i with streak := 0 }

/-- Body of the payout loop, src/bot.py lines 208-218: a positive payout is
credited and the streak extended (best streak updated against the already
incremented streak), a zero payout resets the streak. -/
def settle_user (t : State) (p : Nat × Nat) : State :=
  if 0 < p.2 then
    let t1 := add_balance t p.1 (p.2 : Int)
    let t2 := ensure_user t1 p.1
    { t2 with users := modifyA p.1 win_update t2.users }
  else
    let t1 := ensure_user t p.1
    { t1 with users := modifyA p.1 lose_update t1.users }

/-- Per-winner jackpot share, src/bot.py line 230:
round(pot * stake / total winner stakes), or pot divided by the number of
winners (floored) when the winner stakes sum to zero. -/
def jack_share (pot_amount tws n stake : Nat) : Nat :=
  if 0 < tws then rhe (pot_amount * stake) tws else pot_amount / n

/-- Body of the jackpot distribution loop, src/bot.py lines 228-231. -/
def jackpot_credit (bfr : List (Nat × Bet)) (pot_amount tws n : Nat)
    (t : State) (u : Nat) : State :=
  add_balance t u ((jack_share pot_amount tws n (((getA u bfr).getD { side := Side.T, amount := 0 }).amount) : Nat) : Int)

/-- close_betting_and_roll, src/bot.py lines 148-255.  Returns None and
leaves the state alone unless the round is open; otherwise closes the
round, chooses dice (forced, biased or plain), settles every bet, feeds
the pot, runs the jackpot check, records history, clears the bet table
and returns to idle with forced_next cleared. -/
def close_betting_and_roll (s : State) (rng : Nat → Nat) (coin : Bool) (now : Nat) :
    Option HistRec × State :=
  if s.round.status ≠ Status.opened then (none, s)
  else
    let s1 := { s with round := { s.round with status := Status.closed } }
    let dice := diceFor s1.round rng coin
    let total := dice.sum
    let side := resolve_side total
    let pot_before := s1.pot
    let bfr := (getA s.round.id s1.bets).getD []
    let winners := winners_of bfr side
    let payouts := payouts_of bfr side
    let s2 := { s1 with pot := s1.pot + losers_total_stake bfr side }
    let cut := rhe (3 * winners_profit bfr side) 10
    let s3 := { s2 with pot := s2.pot + cut }
    let s4 := payouts.foldl settle_user s3
    let jack : Nat × State :=
      if dice.count 1 = 3 ∨ dice.count 6 = 3 then
        if winners = [] then (0, s4)
        else
          let pot_amount := s4.pot
          let tws := winners_total_stake bfr side
          let s5 := winners.foldl (jackpot_credit bfr pot_amount tws winners.length) s4
          (pot_amount, { s5 with pot := 0 })
      else (0, s4)
    let s6 := jack.2
    let hrec : HistRec :=
      { id := s.round.id, timestamp := now, dice := dice, total := total, side := side,
        bets := bfr, payouts := payouts, pot_before := pot_before,
        pot_after := s6.pot, distributed_from_pot := jack.1 }
    let r7 := { s6.round with status := Status.idle, forced_next := none }
    let s7 := { s6 with
                history := s6.history ++ [hrec],
                bets := removeA s.round.id s6.bets,
                round := r7 }
    (some hrec, s7)

/-- deposit_cmd, src/bot.py lines 376-396, after a successful parse:
queues a pending deposit request (rid is the time-based request id). -/
def deposit_cmd (s : State) (uid amt rid : Nat) : State :=
  { s with deposit_requests := s.deposit_requests ++
      [{ id := rid, user_id := uid, amount := amt, status := ReqStatus.pending, admin_id := none }] }

/-- Reasons a withdraw request is refused, src/bot.py lines 409-414. -/
inductive WithdrawReject where
  | belowMinimum
  | insufficientFunds
  deriving DecidableEq, Repr

/-- withdraw_cmd, src/bot.py lines 400-426, after a successful parse:
minimum 100000, then a balance check (get_balance lazily creates the user
record), then a pending request is queued. -/
def withdraw_cmd (s : State) (uid amt rid : Nat) : Option WithdrawReject × State :=
  if amt < 100000 then (some WithdrawReject.belowMinimum, s)
  else
    let s1 := ensure_user s uid
    if get_balance s1 uid < (amt : Int) then (some WithdrawReject.insufficientFunds, s1)
    else
      (none, { s1 with withdraw_requests := s1.withdraw_requests ++
        [{ id := rid, user_id := uid, amount := amt, status := ReqStatus.pending, admin_id := none }] })

/-- The request-list walk of callback_query_handler, src/bot.py
lines 438-439 and 458-459: stamp the first request whose id matches and
also return the request as it was found (its fields are read after the
stamp, but only user_id and amount, which the stamp leaves alone). -/
def updateFirst (rid : Nat) (st : ReqStatus) (admin : Nat) :
    List Request → List Request × Option Request
  | [] => ([], none)
  | r :: t =>
    if r.id = rid then ({ r with status := st, admin_id := some admin } :: t, some r)
    else
      let res := updateFirst rid st admin t
      (r :: res.1, res.2)

/-- The deposit branches of callback_query_handler, src/bot.py
lines 436-455: the first request with the given id is stamped with the
decision, and an approval credits the requested amount.  No check of the
previous status of the request is made.  When no request matches, the
handler falls through without mutating anything. -/
def decide_deposit (s : State) (rid admin : Nat) (approve : Bool) : State :=
  let st := if approve then ReqStatus.approved else ReqStatus.denied
  let res := updateFirst rid st admin s.deposit_requests
  match res.2 with
  | none => s
  | some r =>
    if approve then add_balance { s with deposit_requests := res.1 } r.user_id (r.amount : Int)
    else { s with deposit_requests := res.1 }

/-- The withdraw branches of callback_query_handler, src/bot.py
lines 456-474: same shape as the deposit branches, but an approval debits
the requested amount via sub_balance, again with no status check and no
balance check at approval time. -/
def decide_withdraw (s : State) (rid admin : Nat) (approve : Bool) : State :=
  let st := if approve then ReqStatus.approved else ReqStatus.denied
  let res := updateFirst rid st admin s.withdraw_requests
  match res.2 with
  | none => s
  | some r =>
    if approve then sub_balance { s with withdraw_requests := res.1 } r.user_id (r.amount : Int)
    else { s with withdraw_requests := res.1 }

/-- admin_credit, src/bot.py lines 536-545: unconditional credit. -/
def admin_credit (s : State) (uid : Nat) (amt : Int) : State :=
  add_balance s uid amt

/-- admin_setnext, src/bot.py lines 499-511. -/
def admin_setnext (s : State) (v : Option Side) : State :=
  { s with round := { s.round with forced_next := v } }

/-- admin_setbias, src/bot.py lines 514-528 (only the presence of the bias
record matters downstream). -/
def admin_setbias (s : State) (b : Bool) : State :=
  { s with round := { s.round with bias := b } }

/-- start_cmd, src/bot.py lines 291-299: ensure the user exists and grant
the one-time bonus if needed. -/
def start_cmd (s : State) (uid : Nat) : State :=
  (give_first_bonus_if_needed (ensure_user s uid) uid).2

/-- Every state-mutating operation of the program, for program-wide
invariants.  The rng, coin and now arguments carry the randomness and
wall-clock inputs of the corresponding handler. -/
inductive Op where
  | startCmd (uid : Nat)
  | bet (uid : Nat) (side : Side) (amt : Nat)
  | openRound (now : Nat)
  | roll (rng : Nat → Nat) (coin : Bool) (now : Nat)
  | depositReq (uid amt rid : Nat)
  | withdrawReq (uid amt rid : Nat)
  | decideDeposit (rid admin : Nat) (approve : Bool)
  | decideWithdraw (rid admin : Nat) (approve : Bool)
  | credit (uid : Nat) (amt : Int)
  | setNext (v : Option Side)
  | setBias (b : Bool)

/-- Interpretation of an operation as a state transformer. -/
def applyOp : Op → State → State
  | Op.startCmd uid, s => start_cmd s uid
  | Op.bet uid side amt, s => (handle_bet_command s uid side amt).2
  | Op.openRound now, s => (open_new_round s now).2
  | Op.roll rng coin now, s => (close_betting_and_roll s rng coin now).2
  | Op.depositReq uid amt rid, s => deposit_cmd s uid amt rid
  | Op.withdrawReq uid amt rid, s => (withdraw_cmd s uid amt rid).2
  | Op.decideDeposit rid admin approve, s => decide_deposit s rid admin approve
  | Op.decideWithdraw rid admin approve, s => decide_withdraw s rid admin approve
  | Op.credit uid amt, s => admin_credit s uid amt
  | Op.setNext v, s => admin_setnext s v
  | Op.setBias b, s => admin_setbias s b

/-- Sum of all user balances, the ledger-side total the spec reconciles
against the bet table. -/
def totalBal (s : State) : Int :=
  (s.users.map (fun p => p.2.balance)).sum

/-- Sum of the stakes recorded in the bet table of the current round. -/
def betSum (s : State) : Nat :=
  (((getA s.round.id s.bets).getD []).map (fun p => p.2.amount)).sum

/-- Applying a list of bet commands (uid, side, stake) in order. -/
def applyBets (s : State) : List (Nat × Side × Nat) → State
  | [] => s
  | c :: t => applyBets (handle_bet_command s c.1 c.2.1 c.2.2).2 t

/-- Best streak of a user as recorded in a user table (0 when absent,
matching the fresh record ensure_user would create). -/
def bestStreakOf (l : List (Nat × UserInfo)) (u : Nat) : Nat :=
  ((getA u l).map UserInfo.best_streak).getD 0

/-! ### Association-list lemmas -/

theorem getA_setA_self {α : Type} (k : Nat) (v : α) (l : List (Nat × α)) :
    getA k (setA k v l) = some v := by
  induction l with
  | nil => simp [getA, setA]
  | cons p t ih =>
    by_cases h : p.1 = k
    · simp [getA, setA, h]
    · simp [getA, setA, h, ih]

theorem getA_setA_ne {α : Type} (k k' : Nat) (v : α) (l : List (Nat × α))
    (h : k' ≠ k) : getA k' (setA k v l) = getA k' l := by
  induction l with
  | nil => simp [getA, setA, Ne.symm h]
  | cons p t ih =>
    by_cases hp : p.1 = k
    · subst hp
      simp [getA, setA, Ne.symm h]
    · simp only [setA, if_neg hp, getA]
      by_cases hp2 : p.1 = k'
      · simp [hp2]
      · simp [hp2, ih]

theorem getA_modifyA_self {α : Type} (k : Nat) (f : α → α) (l : List (Nat × α)) :
    getA k (modifyA k f l) = (getA k l).map f := by
  induction l with
  | nil => simp [getA, modifyA]
  | cons p t ih =>
    by_cases h : p.1 = k
    · simp [getA, modifyA, h]
    · simp [getA, modifyA, h, ih]

theorem getA_modifyA_ne {α : Type} (k u : Nat) (f : α → α) (l : List (Nat × α))
    (h : u ≠ k) : getA u (modifyA k f l) = getA u l := by
  induction l with
  | nil => simp [getA, modifyA]
  | cons p t ih =>
    by_cases hp : p.1 = k
    · subst hp
      simp [getA, modifyA, Ne.symm h]
    · simp only [modifyA, if_neg hp, getA]
      by_cases hp2 : p.1 = u
      · simp [hp2]
      · simp [hp2, ih]

theorem getA_append {α : Type} (k : Nat) (l1 l2 : List (Nat × α)) :
    getA k (l1 ++ l2) = match getA k l1 with
      | some x => some x
      | none => getA k l2 := by
  induction l1 with
  | nil => simp [getA]
  | cons p t ih =>
    by_cases h : p.1 = k
    · simp [getA, h]
    · simp [getA, h, ih]

/-! ### Ledger lemmas -/

theorem getA_ensure_user (s : State) (u v : Nat) :
    getA v (ensure_user s u).users =
      if v = u then some ((getA u s.users).getD defaultUser) else getA v s.users := by
  unfold ensure_user
  by_cases hu : (getA u s.users).isSome
  · rw [if_pos hu]
    by_cases hv : v = u
    · subst hv
      obtain ⟨i, hi⟩ := Option.isSome_iff_exists.mp hu
      simp [hi]
    · simp [hv]
  · rw [if_neg hu]
    simp only [getA_append]
    rw [Option.not_isSome_iff_eq_none] at hu
    by_cases hv : v = u
    · subst hv
      simp [hu, getA]
    · by_cases hgv : (getA v s.users).isSome
      · obtain ⟨i, hi⟩ := Option.isSome_iff_exists.mp hgv
        simp [hi, hv]
      · rw [Option.not_isSome_iff_eq_none] at hgv
        simp [hgv, hv, getA, Ne.symm hv]

theorem get_balance_ensure_user (s : State) (u v : Nat) :
    get_balance (ensure_user s u) v = get_balance s v := by
  unfold get_balance
  rw [getA_ensure_user]
  by_cases hv : v = u
  · subst hv
    cases hg : getA v s.users <;> simp [hg, defaultUser]
  · simp [hv]

theorem get_balance_add_balance (s : State) (u : Nat) (a : Int) (v : Nat) :
    get_balance (add_balance s u a) v = get_balance s v + if v = u then a else 0 := by
  unfold add_balance get_balance
  by_cases hv : v = u
  · subst hv
    simp only [getA_modifyA_self, getA_ensure_user, if_pos rfl]
    cases hg : getA v s.users <;> simp [hg, defaultUser]
  · simp only [getA_modifyA_ne _ _ _ _ hv, getA_ensure_user, if_neg hv]
    have := get_balance_ensure_user s u v
    simp [hv]

theorem get_balance_sub_balance (s : State) (u : Nat) (a : Int) (v : Nat) :
    get_balance (sub_balance s u a) v = get_balance s v - if v = u then a else 0 := by
  unfold sub_balance get_balance
  by_cases hv : v = u
  · subst hv
    simp only [getA_modifyA_self, getA_ensure_user, if_pos rfl]
    cases hg : getA v s.users <;> simp [hg, defaultUser]
  · simp only [getA_modifyA_ne _ _ _ _ hv, getA_ensure_user, if_neg hv]
    simp [hv]

@[simp] theorem ensure_user_pot (s : State) (u : Nat) : (ensure_user s u).pot = s.pot := by
  unfold ensure_user
  split <;> rfl

@[simp] theorem ensure_user_bets (s : State) (u : Nat) : (ensure_user s u).bets = s.bets := by
  unfold ensure_user
  split <;> rfl

@[simp] theorem ensure_user_round (s : State) (u : Nat) : (ensure_user s u).round = s.round := by
  unfold ensure_user
  split <;> rfl

@[simp] theorem ensure_user_history (s : State) (u : Nat) :
    (ensure_user s u).history = s.history := by
  unfold ensure_user
  split <;> rfl

@[simp] theorem add_balance_pot (s : State) (u : Nat) (a : Int) :
    (add_balance s u a).pot = s.pot := by
  simp [add_balance]

@[simp] theorem add_balance_bets (s : State) (u : Nat) (a : Int) :
    (add_balance s u a).bets = s.bets := by
  simp [add_balance]

@[simp] theorem add_balance_round (s : State) (u : Nat) (a : Int) :
    (add_balance s u a).round = s.round := by
  simp [add_balance]

@[simp] theorem add_balance_history (s : State) (u : Nat) (a : Int) :
    (add_balance s u a).history = s.history := by
  simp [add_balance]

@[simp] theorem sub_balance_pot (s : State) (u : Nat) (a : Int) :
    (sub_balance s u a).pot = s.pot := by
  simp [sub_balance]

@[simp] theorem sub_balance_bets (s : State) (u : Nat) (a : Int) :
    (sub_balance s u a).bets = s.bets := by
  simp [sub_balance]

@[simp] theorem sub_balance_round (s : State) (u : Nat) (a : Int) :
    (sub_balance s u a).round = s.round := by
  simp [sub_balance]

@[simp] theorem settle_user_pot (t : State) (p : Nat × Nat) :
    (settle_user t p).pot = t.pot := by
  unfold settle_user
  split <;> simp

@[simp] theorem settle_user_bets (t : State) (p : Nat × Nat) :
    (settle_user t p).bets = t.bets := by
  unfold settle_user
  split <;> simp

@[simp] theorem settle_user_round (t : State) (p : Nat × Nat) :
    (settle_user t p).round = t.round := by
  unfold settle_user
  split <;> simp

@[simp] theorem foldl_settle_user_pot (l : List (Nat × Nat)) (t : State) :
    (l.foldl settle_user t).pot = t.pot := by
  induction l generalizing t with
  | nil => rfl
  | cons p tl ih => simp [List.foldl, ih]

@[simp] theorem jackpot_credit_pot (bfr : List (Nat × Bet)) (pa tws n : Nat)
    (t : State) (u : Nat) : (jackpot_credit bfr pa tws n t u).pot = t.pot := by
  simp [jackpot_credit]

@[simp] theorem foldl_jackpot_credit_pot (bfr : List (Nat × Bet)) (pa tws n : Nat)
    (ws : List Nat) (t : State) :
    (ws.foldl (jackpot_credit bfr pa tws n) t).pot = t.pot := by
  induction ws generalizing t with
  | nil => rfl
  | cons w tl ih => simp [List.foldl, ih]

/-! ### Balance bookkeeping through settlement -/

theorem get_balance_users_modify (x : State) (k : Nat) (f : UserInfo → UserInfo)
    (hf : ∀ i, (f i).balance = i.balance) (u : Nat) :
    get_balance { x with users := modifyA k f x.users } u = get_balance x u := by
  show ((getA u (modifyA k f x.users)).map UserInfo.balance).getD 0 = _
  by_cases hu : u = k
  · subst hu
    rw [getA_modifyA_self]
    unfold get_balance
    cases getA u x.users <;> simp [hf]
  · rw [getA_modifyA_ne _ _ _ _ hu]
    rfl

theorem get_balance_settle_user (t : State) (p : Nat × Nat) (u : Nat) :
    get_balance (settle_user t p) u =
      get_balance t u + if p.1 = u then (p.2 : Int) else 0 := by
  unfold settle_user
  by_cases hpos : 0 < p.2
  · rw [if_pos hpos]
    refine Eq.trans
      (get_balance_users_modify (ensure_user (add_balance t p.1 (p.2 : Int)) p.1)
        p.1 win_update (fun i => rfl) u) ?_
    rw [get_balance_ensure_user, get_balance_add_balance]
    by_cases hu : u = p.1
    · subst hu
      simp
    · rw [if_neg hu, if_neg (fun h => hu h.symm)]
  · rw [if_neg hpos]
    have hz : p.2 = 0 := by omega
    refine Eq.trans
      (get_balance_users_modify (ensure_user t p.1) p.1 lose_update (fun i => rfl) u) ?_
    rw [get_balance_ensure_user]
    simp [hz]

theorem get_balance_foldl_settle_user (l : List (Nat × Nat)) (t : State) (u : Nat) :
    get_balance (l.foldl settle_user t) u =
      get_balance t u + ((l.filter (fun p => p.1 = u)).map (fun p => (p.2 : Int))).sum := by
  induction l generalizing t with
  | nil => simp
  | cons p tl ih =>
    rw [List.foldl_cons, ih, get_balance_settle_user]
    by_cases hp : p.1 = u
    · simp [hp]
      omega
    · simp [hp]

theorem get_balance_jackpot_credit (bfr : List (Nat × Bet)) (pa tws n : Nat)
    (t : State) (w u : Nat) :
    get_balance (jackpot_credit bfr pa tws n t w) u =
      get_balance t u + if w = u then
        (jack_share pa tws n (((getA u bfr).getD { side := Side.T, amount := 0 }).amount) : Int)
      else 0 := by
  unfold jackpot_credit
  rw [get_balance_add_balance]
  by_cases hw : w = u
  · subst hw
    simp
  · rw [if_neg (fun h => hw h.symm), if_neg hw]

theorem get_balance_foldl_jackpot (bfr : List (Nat × Bet)) (pa tws n : Nat)
    (ws : List Nat) (t : State) (u : Nat) :
    get_balance (ws.foldl (jackpot_credit bfr pa tws n) t) u =
      get_balance t u + (ws.count u : Int) *
        (jack_share pa tws n (((getA u bfr).getD { side := Side.T, amount := 0 }).amount) : Int) := by
  induction ws generalizing t with
  | nil => simp
  | cons w tl ih =>
    rw [List.foldl_cons, ih, get_balance_jackpot_credit]
    by_cases hw : w = u
    · subst hw
      rw [List.count_cons_self]
      simp only [if_pos rfl]
      push_cast
      ring
    · rw [List.count_cons_of_ne (fun h => hw h.symm)]
      simp [hw]

/-! ### Unique-key lemmas -/

theorem getA_eq_none_of_not_mem_keys {α : Type} (l : List (Nat × α)) (u : Nat)
    (h : u ∉ l.map Prod.fst) : getA u l = none := by
  induction l with
  | nil => rfl
  | cons p t ih =>
    simp only [List.map_cons, List.mem_cons, not_or] at h
    have hne : p.1 ≠ u := fun hp => h.1 hp.symm
    simp only [getA, if_neg hne]
    exact ih h.2

theorem getA_of_nodup_mem {α : Type} (l : List (Nat × α)) (u : Nat) (a : α)
    (hnd : (l.map Prod.fst).Nodup) (hm : (u, a) ∈ l) : getA u l = some a := by
  induction l with
  | nil => cases hm
  | cons p t ih =>
    simp only [List.map_cons, List.nodup_cons] at hnd
    rcases List.mem_cons.mp hm with he | ht
    · subst he
      simp [getA]
    · have hne : p.1 ≠ u := by
        intro hp
        exact hnd.1 (hp ▸ (List.mem_map.mpr ⟨(u, a), ht, rfl⟩))
      simp only [getA, if_neg hne]
      exact ih hnd.2 ht

theorem filter_key_eq_of_nodup {α : Type} (l : List (Nat × α)) (u : Nat) (a : α)
    (hnd : (l.map Prod.fst).Nodup) (hm : (u, a) ∈ l) :
    l.filter (fun p => p.1 = u) = [(u, a)] := by
  induction l with
  | nil => cases hm
  | cons p t ih =>
    simp only [List.map_cons, List.nodup_cons] at hnd
    rcases List.mem_cons.mp hm with he | ht
    · subst he
      have : t.filter (fun p => p.1 = u) = [] := by
        rw [List.filter_eq_nil_iff]
        intro q hq hk
        simp only [decide_eq_true_eq] at hk
        exact hnd.1 (hk ▸ (List.mem_map.mpr ⟨q, hq, rfl⟩))
      simp [List.filter_cons, this]
    · have hne : p.1 ≠ u := by
        intro hp
        exact hnd.1 (hp ▸ (List.mem_map.mpr ⟨(u, a), ht, rfl⟩))
      rw [List.filter_cons, if_neg (by simpa using hne)]
      exact ih hnd.2 ht

theorem getA_of_nodup_payouts (bfr : List (Nat × Bet)) (side : Side) (u : Nat) (b : Bet)
    (hnd : (bfr.map Prod.fst).Nodup) (hm : (u, b) ∈ bfr) :
    getA u (payouts_of bfr side) =
      some (if b.side = side then rhe (197 * b.amount) 100 else 0) := by
  unfold payouts_of
  refine getA_of_nodup_mem _ u _ ?_ ?_
  · have : ((bfr.map (fun p => (p.1, if p.2.side = side then rhe (197 * p.2.amount) 100 else 0))).map Prod.fst) = bfr.map Prod.fst := by
      simp [List.map_map]
    rw [this]
    exact hnd
  · exact List.mem_map.mpr ⟨(u, b), hm, rfl⟩

/-! ### Unfolding equations for the two guarded operations -/

theorem handle_bet_not_opened (s : State) (uid : Nat) (side : Side) (amt : Nat)
    (h : s.round.status ≠ Status.opened) :
    handle_bet_command s uid side amt = (some BetReject.notOpen, s) := by
  unfold handle_bet_command
  rw [if_pos h]

theorem handle_bet_opened (s : State) (uid : Nat) (side : Side) (amt : Nat)
    (h : s.round.status = Status.opened) :
    handle_bet_command s uid side amt =
      (if ((getA uid (ensure_user s uid).users).getD defaultUser).first_bonus_given = true
          ∧ get_balance (ensure_user s uid) uid = INITIAL_BONUS ∧ MAX_BONUS_BET < amt then
        (some BetReject.bonusCap, ensure_user s uid)
      else if amt = 0 then (some BetReject.invalidAmount, ensure_user s uid)
      else if get_balance (ensure_user s uid) uid < (amt : Int) then
        (some BetReject.insufficientFunds, ensure_user s uid)
      else
        (none, { sub_balance (ensure_user s uid) uid (amt : Int) with
                 bets := setA s.round.id
                   (setA uid { side := side, amount := amt }
                     ((getA s.round.id (sub_balance (ensure_user s uid) uid (amt : Int)).bets).getD []))
                   (sub_balance (ensure_user s uid) uid (amt : Int)).bets })) := by
  unfold handle_bet_command
  rw [if_neg (fun hn => hn h)]

theorem close_not_opened (s : State) (rng : Nat → Nat) (coin : Bool) (now : Nat)
    (h : s.round.status ≠ Status.opened) :
    close_betting_and_roll s rng coin now = (none, s) := by
  unfold close_betting_and_roll
  rw [if_pos h]

theorem close_some_status (s : State) (rng : Nat → Nat) (coin : Bool) (now : Nat)
    (hrec : HistRec) (s' : State)
    (h : close_betting_and_roll s rng coin now = (some hrec, s')) :
    s'.round.status = Status.idle := by
  by_cases hs : s.round.status = Status.opened
  · unfold close_betting_and_roll at h
    rw [if_neg (fun hn => hn hs)] at h
    have h2 := congrArg Prod.snd h
    simp only at h2
    rw [← h2]
  · rw [close_not_opened s rng coin now hs] at h
    exact Option.noConfusion (congrArg Prod.fst h)

/-- C4 counterexample state: a single open round with one recorded bet. -/
def c4s : State :=
  { users := [(1, defaultUser)],
    bets := [(3, [(1, { side := Side.T, amount := 50 })])],
    round := { id := 3, status := Status.opened, scheduled_roll_ts := some 60,
               forced_next := none, bias := false },
    history := [], pot := 0, withdraw_requests := [], deposit_requests := [] }

/-- C4: the claim says a second invocation of round resolution for the same
round id returns the already-computed result.  In fact the second
invocation returns no result at all: on the concrete state c4s the first
call yields a result, the second call yields none. -/
theorem claim_C4_counterexample :
    (close_betting_and_roll c4s (fun _ => 3) true 0).1 ≠ none ∧
    (close_betting_and_roll
      ((close_betting_and_roll c4s (fun _ => 3) true 0).2) (fun _ => 3) true 0).1 = none := by
  constructor
  · decide
  · decide

/-- C4 (amended): a second invocation of close_betting_and_roll after a
successful resolution mutates no state and returns none (not the
already-computed result): resolution leaves the round idle, and from any
non-open status the function is the identity returning none. -/
theorem claim_C4_idempotent (s : State) (rng : Nat → Nat) (coin : Bool) (now : Nat)
    (hrec : HistRec) (s' : State) (rng2 : Nat → Nat) (coin2 : Bool) (now2 : Nat)
    (h : close_betting_and_roll s rng coin now = (some hrec, s')) :
    close_betting_and_roll s' rng2 coin2 now2 = (none, s') := by
  have hidle := close_some_status s rng coin now hrec s' h
  refine close_not_opened s' rng2 coin2 now2 ?_
  rw [hidle]
  intro hc
  cases hc

/-- C4 witness: the amended theorem applied to the concrete state c4s. -/
theorem claim_C4_idempotent_witness :
    close_betting_and_roll
      ((close_betting_and_roll c4s (fun _ => 3) true 0).2) (fun _ => 3) true 7 =
      (none, (close_betting_and_roll c4s (fun _ => 3) true 0).2) := by
  have h : close_betting_and_roll c4s (fun _ => 3) true 0 =
      (some ((close_betting_and_roll c4s (fun _ => 3) true 0).1.getD
               { id := 0, timestamp := 0, dice := [], total := 0, side := Side.T,
                 bets := [], payouts := [], pot_before := 0, pot_after := 0,
                 distributed_from_pot := 0 }),
       (close_betting_and_roll c4s (fun _ => 3) true 0).2) := by
    decide
  exact claim_C4_idempotent c4s (fun _ => 3) true 0 _ _ (fun _ => 3) true 7 h

/-- C7 counterexample state: a round is already open (status is not idle). -/
def c7s : State :=
  { users := [], bets := [(5, [])],
    round := { id := 5, status := Status.opened, scheduled_roll_ts := some 100,
               forced_next := none, bias := false },
    history := [], pot := 0, withdraw_requests := [], deposit_requests := [] }

/-- C7: the claim says open_new_round fails with InvalidState and changes
no state when the status is not Idle.  In fact it succeeds from the open
state c7s: it changes the state and hands out the next round id. -/
theorem claim_C7_counterexample :
    c7s.round.status ≠ Status.idle ∧
    (open_new_round c7s 0).2 ≠ c7s ∧
    (open_new_round c7s 0).1 = 6 ∧
    (open_new_round c7s 0).2.round.status = Status.opened := by
  refine ⟨by decide, by decide, by decide, by decide⟩

/-- C7 (amended): open_new_round succeeds from every state, idle or not:
it allocates the incremented (hence monotonically increasing) round id,
marks the round open, schedules the close time, installs an empty bet set
for the new round and returns the new id, leaving users, pot and history
alone.  It never fails with an InvalidState error. -/
theorem claim_C7_open_round (s : State) (now : Nat) :
    (open_new_round s now).1 = s.round.id + 1 ∧
    (open_new_round s now).2.round.id = s.round.id + 1 ∧
    (open_new_round s now).2.round.status = Status.opened ∧
    (open_new_round s now).2.round.scheduled_roll_ts = some (now + ROLL_INTERVAL) ∧
    getA (s.round.id + 1) (open_new_round s now).2.bets = some [] ∧
    (open_new_round s now).2.users = s.users ∧
    (open_new_round s now).2.pot = s.pot ∧
    (open_new_round s now).2.history = s.history := by
  refine ⟨rfl, rfl, rfl, rfl, ?_, rfl, rfl, rfl⟩
  exact getA_setA_self (s.round.id + 1) [] s.bets

/-! ### Approval-handler balance lemmas -/

theorem decide_withdraw_balance (s : State) (rid admin : Nat) (r : Request)
    (h : (updateFirst rid ReqStatus.approved admin s.withdraw_requests).2 = some r) :
    get_balance (decide_withdraw s rid admin true) r.user_id =
      get_balance s r.user_id - (r.amount : Int) := by
  unfold decide_withdraw
  simp only [eq_self_iff_true, if_true]
  rw [h]
  dsimp only
  rw [show get_balance
        (sub_balance { s with withdraw_requests :=
          (updateFirst rid ReqStatus.approved admin s.withdraw_requests).1 } r.user_id (r.amount : Int))
        r.user_id =
      get_balance { s with withdraw_requests :=
          (updateFirst rid ReqStatus.approved admin s.withdraw_requests).1 } r.user_id -
        (r.amount : Int) from by
    rw [get_balance_sub_balance]
    simp]
  rfl

theorem decide_deposit_balance (s : State) (rid admin : Nat) (r : Request)
    (h : (updateFirst rid ReqStatus.approved admin s.deposit_requests).2 = some r) :
    get_balance (decide_deposit s rid admin true) r.user_id =
      get_balance s r.user_id + (r.amount : Int) := by
  unfold decide_deposit
  simp only [eq_self_iff_true, if_true]
  rw [h]
  dsimp only
  rw [show get_balance
        (add_balance { s with deposit_requests :=
          (updateFirst rid ReqStatus.approved admin s.deposit_requests).1 } r.user_id (r.amount : Int))
        r.user_id =
      get_balance { s with deposit_requests :=
          (updateFirst rid ReqStatus.approved admin s.deposit_requests).1 } r.user_id +
        (r.amount : Int) from by
    rw [get_balance_add_balance]
    simp]
  rfl

/-- C5 counterexample state: user 7 has balance 0 but a pending withdraw
request over 100000 (placed earlier, when funds may have been present). -/
def c5s : State :=
  { users := [(7, defaultUser)],
    bets := [],
    round := { id := 0, status := Status.idle, scheduled_roll_ts := none,
               forced_next := none, bias := false },
    history := [], pot := 0,
    withdraw_requests :=
      [{ id := 1, user_id := 7, amount := 100000, status := ReqStatus.pending, admin_id := none }],
    deposit_requests := [] }

/-- C5: the claim says every debit path fails with InsufficientFunds when
balance is below the amount, keeping balances nonnegative.  In fact
approving the pending withdraw request of c5s debits a user whose balance
is 0: the approval goes through and the balance becomes -100000. -/
theorem claim_C5_counterexample :
    get_balance c5s 7 = 0 ∧
    get_balance (decide_withdraw c5s 1 9 true) 7 = -100000 ∧
    get_balance (decide_withdraw c5s 1 9 true) 7 < 0 ∧
    (decide_withdraw c5s 1 9 true).withdraw_requests.map Request.status =
      [ReqStatus.approved] := by
  refine ⟨by decide, by decide, by decide, by decide⟩

/-- C5 (amended): sub_balance subtracts unconditionally and never fails,
so balances can go negative; the balance-versus-amount guard exists only
on the bet-placement path (a successful bet implies sufficient funds at
placement), not on the admin-approval path, where a pending withdraw is
debited in full regardless of the current balance. -/
theorem claim_C5_debit_unchecked :
    (∀ (s : State) (u : Nat) (a : Int),
       get_balance (sub_balance s u a) u = get_balance s u - a) ∧
    (∀ (s : State) (uid : Nat) (side : Side) (amt : Nat),
       (handle_bet_command s uid side amt).1 = none →
       (amt : Int) ≤ get_balance (ensure_user s uid) uid) ∧
    (∀ (s : State) (rid admin : Nat) (r : Request),
       (updateFirst rid ReqStatus.approved admin s.withdraw_requests).2 = some r →
       get_balance (decide_withdraw s rid admin true) r.user_id =
         get_balance s r.user_id - (r.amount : Int)) := by
  refine ⟨?_, ?_, ?_⟩
  · intro s u a
    rw [get_balance_sub_balance]
    simp
  · intro s uid side amt h
    by_cases hs : s.round.status = Status.opened
    · rw [handle_bet_opened s uid side amt hs] at h
      by_cases h1 : ((getA uid (ensure_user s uid).users).getD defaultUser).first_bonus_given = true
          ∧ get_balance (ensure_user s uid) uid = INITIAL_BONUS ∧ MAX_BONUS_BET < amt
      · rw [if_pos h1] at h
        simp at h
      · rw [if_neg h1] at h
        by_cases h2 : amt = 0
        · rw [if_pos h2] at h
          simp at h
        · rw [if_neg h2] at h
          by_cases h3 : get_balance (ensure_user s uid) uid < (amt : Int)
          · rw [if_pos h3] at h
            simp at h
          · exact not_lt.mp h3
    · rw [handle_bet_not_opened s uid side amt hs] at h
      simp at h
  · intro s rid admin r h
    exact decide_withdraw_balance s rid admin r h

/-- C5 witness: the amended theorem applied to c5s, showing the
approval-path debit goes through below the balance. -/
theorem claim_C5_debit_unchecked_witness :
    get_balance (decide_withdraw c5s 1 9 true) 7 = get_balance c5s 7 - 100000 := by
  have h : (updateFirst 1 ReqStatus.approved 9 c5s.withdraw_requests).2 =
      some { id := 1, user_id := 7, amount := 100000,
             status := ReqStatus.pending, admin_id := none } := by decide
  exact claim_C5_debit_unchecked.2.2 c5s 1 9 _ h

/-- C6 counterexample state: a single pending deposit request of 100 for
user 7, whose balance is 0. -/
def c6s : State :=
  { users := [(7, defaultUser)],
    bets := [],
    round := { id := 0, status := Status.idle, scheduled_roll_ts := none,
               forced_next := none, bias := false },
    history := [], pot := 0,
    withdraw_requests := [],
    deposit_requests :=
      [{ id := 1, user_id := 7, amount := 100, status := ReqStatus.pending, admin_id := none }] }

/-- C6: the claim says re-deciding an already-approved request is rejected
and never credits again.  In fact approving the same deposit request of
c6s twice credits the user twice: 100 after the first approval, 200 after
the second, although the request was already in the approved state. -/
theorem claim_C6_counterexample :
    get_balance (decide_deposit c6s 1 9 true) 7 = 100 ∧
    (decide_deposit c6s 1 9 true).deposit_requests.map Request.status =
      [ReqStatus.approved] ∧
    get_balance (decide_deposit (decide_deposit c6s 1 9 true) 1 9 true) 7 = 200 := by
  refine ⟨by decide, by decide, by decide⟩

/-- C6 (amended): an admin decision stamps the request status and admin
id but is not idempotent: the handler never inspects the previous status,
so approving a request that is already approved credits a deposit again
and debits a withdraw again. -/
theorem claim_C6_redecide :
    (∀ (s : State) (rid admin : Nat) (r : Request),
       (updateFirst rid ReqStatus.approved admin s.deposit_requests).2 = some r →
       r.status = ReqStatus.approved →
       get_balance (decide_deposit s rid admin true) r.user_id =
         get_balance s r.user_id + (r.amount : Int)) ∧
    (∀ (s : State) (rid admin : Nat) (r : Request),
       (updateFirst rid ReqStatus.approved admin s.withdraw_requests).2 = some r →
       r.status = ReqStatus.approved →
       get_balance (decide_withdraw s rid admin true) r.user_id =
         get_balance s r.user_id - (r.amount : Int)) := by
  constructor
  · intro s rid admin r h _
    exact decide_deposit_balance s rid admin r h
  · intro s rid admin r h _
    exact decide_withdraw_balance s rid admin r h

/-- C6 witness: the amended theorem applied to the state in which the
deposit request of c6s has already been approved once. -/
theorem claim_C6_redecide_witness :
    get_balance (decide_deposit (decide_deposit c6s 1 9 true) 1 9 true) 7 =
      get_balance (decide_deposit c6s 1 9 true) 7 + 100 := by
  have h : (updateFirst 1 ReqStatus.approved 9
        (decide_deposit c6s 1 9 true).deposit_requests).2 =
      some { id := 1, user_id := 7, amount := 100,
             status := ReqStatus.approved, admin_id := some 9 } := by decide
  exact claim_C6_redecide.1 (decide_deposit c6s 1 9 true) 1 9 _ h rfl

/-! ### Dice-sampler lemmas -/

theorem die_range (rng : Nat → Nat) (i : Nat) : 1 ≤ die rng i ∧ die rng i ≤ 6 := by
  unfold die
  have : rng i % 6 < 6 := Nat.mod_lt _ (by omega)
  omega

theorem mem_rollTriple_range (rng : Nat → Nat) (k : Nat) (d : Nat)
    (h : d ∈ rollTriple rng k) : 1 ≤ d ∧ d ≤ 6 := by
  unfold rollTriple at h
  rcases List.mem_cons.mp h with h1 | h'
  · exact h1 ▸ die_range rng (3 * k)
  rcases List.mem_cons.mp h' with h2 | h''
  · exact h2 ▸ die_range rng (3 * k + 1)
  rcases List.mem_cons.mp h'' with h3 | hnil
  · exact h3 ▸ die_range rng (3 * k + 2)
  · cases hnil

theorem genFrom_some (side : Side) (rng : Nat → Nat) :
    ∀ (fuel k : Nat) (d : List Nat), genFrom side rng k fuel = some d →
      (∃ j, k ≤ j ∧ j < k + fuel ∧ d = rollTriple rng j) ∧ resolve_side d.sum = side := by
  intro fuel
  induction fuel with
  | zero =>
    intro k d h
    cases h
  | succ fuel ih =>
    intro k d h
    unfold genFrom at h
    by_cases hc : resolve_side (rollTriple rng k).sum = side
    · rw [if_pos hc] at h
      have hd : rollTriple rng k = d := by
        exact Option.some.inj h
      subst hd
      exact ⟨⟨k, le_rfl, by omega, rfl⟩, hc⟩
    · rw [if_neg hc] at h
      obtain ⟨⟨j, hj1, hj2, hj3⟩, hside⟩ := ih (k + 1) d h
      exact ⟨⟨j, by omega, by omega, hj3⟩, hside⟩

theorem rollTriple_congr (rng rng2 : Nat → Nat) (k : Nat)
    (h : ∀ i, i < 3 * k + 3 → rng i = rng2 i) : rollTriple rng k = rollTriple rng2 k := by
  unfold rollTriple die
  rw [h (3 * k) (by omega), h (3 * k + 1) (by omega), h (3 * k + 2) (by omega)]

theorem genFrom_congr (side : Side) :
    ∀ (fuel k : Nat) (rng rng2 : Nat → Nat), (∀ i, i < 3 * (k + fuel) → rng i = rng2 i) →
      genFrom side rng k fuel = genFrom side rng2 k fuel := by
  intro fuel
  induction fuel with
  | zero => intro k rng rng2 _; rfl
  | succ fuel ih =>
    intro k rng rng2 h
    have hr : rollTriple rng k = rollTriple rng2 k :=
      rollTriple_congr rng rng2 k (fun i hi => h i (by omega))
    unfold genFrom
    rw [hr]
    by_cases hc : resolve_side (rollTriple rng2 k).sum = side
    · rw [if_pos hc, if_pos hc]
    · rw [if_neg hc, if_neg hc]
      exact ih (k + 1) rng rng2 (fun i hi => h i (by omega))

/-- C9: the forced-side dice sampler terminates within the 200 bounded
attempts plus one unconstrained fallback roll (its output is one of the
attempt triples 0..200 and depends on at most the first 603 entries of the
random stream), always yields exactly three dice each in 1..6, and
whenever the bounded retry loop finds a triple within its 200 attempts,
the returned total maps to the requested side. -/
theorem claim_C9_dice_sampler (side : Side) (rng : Nat → Nat) :
    (generate_dice_for_side side rng).length = 3 ∧
    (∀ d ∈ generate_dice_for_side side rng, 1 ≤ d ∧ d ≤ 6) ∧
    (∃ j, j ≤ 200 ∧ generate_dice_for_side side rng = rollTriple rng j) ∧
    (∀ dice, genFrom side rng 0 200 = some dice →
       generate_dice_for_side side rng = dice ∧ resolve_side dice.sum = side) ∧
    (∀ rng2 : Nat → Nat, (∀ i, i < 603 → rng i = rng2 i) →
       generate_dice_for_side side rng = generate_dice_for_side side rng2) := by
  have hcase : (∃ j, j ≤ 200 ∧ generate_dice_for_side side rng = rollTriple rng j) := by
    unfold generate_dice_for_side
    cases hg : genFrom side rng 0 200 with
    | none => exact ⟨200, le_rfl, rfl⟩
    | some d =>
      obtain ⟨⟨j, _, hj2, hj3⟩, _⟩ := genFrom_some side rng 200 0 d hg
      exact ⟨j, by omega, hj3⟩
  obtain ⟨j, hj, hrt⟩ := hcase
  refine ⟨?_, ?_, ⟨j, hj, hrt⟩, ?_, ?_⟩
  · rw [hrt]
    rfl
  · intro d hd
    rw [hrt] at hd
    exact mem_rollTriple_range rng j d hd
  · intro dice hg
    constructor
    · unfold generate_dice_for_side
      rw [hg]
    · exact (genFrom_some side rng 200 0 dice hg).2
  · intro rng2 h
    unfold generate_dice_for_side
    rw [genFrom_congr side 200 0 rng rng2 (fun i hi => h i (by omega))]
    cases hg : genFrom side rng2 0 200 with
    | none => exact rollTriple_congr rng rng2 200 (fun i hi => h i (by omega))
    | some d => rfl

/-- C9 witness: with the constant stream 3 every die shows 4, the first
attempt already totals 12 which maps to T, so the sampler returns it. -/
theorem claim_C9_dice_sampler_witness :
    generate_dice_for_side Side.T (fun _ => 3) = [4, 4, 4] ∧
    resolve_side ([4, 4, 4] : List Nat).sum = Side.T := by
  have h : genFrom Side.T (fun _ => 3) 0 200 = some [4, 4, 4] := by decide
  exact (claim_C9_dice_sampler Side.T (fun _ => 3)).2.2.2.1 [4, 4, 4] h

/-! ### Rounding bounds -/

theorem rhe_le (a b : Nat) (hb : 0 < b) : 2 * b * rhe a b ≤ 2 * a + b := by
  obtain ⟨d, r, ha, hr⟩ : ∃ d r, a = b * d + r ∧ r < b :=
    ⟨a / b, a % b, (Nat.div_add_mod a b).symm, Nat.mod_lt _ hb⟩
  subst ha
  have hdiv : (b * d + r) / b = d := by
    rw [Nat.mul_add_div hb, Nat.div_eq_of_lt hr, Nat.add_zero]
  have hmod : (b * d + r) % b = r := by
    rw [Nat.mul_add_mod, Nat.mod_eq_of_lt hr]
  simp only [rhe, hdiv, hmod]
  by_cases h1 : 2 * r < b
  · rw [if_pos h1]
    nlinarith [h1, hr]
  · rw [if_neg h1]
    have hb2 : b ≤ 2 * r := Nat.not_lt.mp h1
    by_cases h2 : b < 2 * r
    · rw [if_pos h2]
      nlinarith [hb2]
    · rw [if_neg h2]
      by_cases h3 : d % 2 = 0
      · rw [if_pos h3]
        nlinarith [hb2]
      · rw [if_neg h3]
        nlinarith [hb2]

theorem payout_le_twice (w : Nat) : rhe (197 * w) 100 ≤ 2 * w := by
  by_cases h : w < 17
  · have hsmall : ∀ v, v < 17 → rhe (197 * v) 100 ≤ 2 * v := by decide
    exact hsmall w h
  · have := rhe_le (197 * w) 100 (by omega)
    omega

theorem profit_le_stake (w : Nat) : rhe (97 * w) 100 ≤ w := by
  by_cases h : w < 17
  · have hsmall : ∀ v, v < 17 → rhe (97 * v) 100 ≤ v := by decide
    exact hsmall w h
  · have := rhe_le (97 * w) 100 (by omega)
    omega

theorem payouts_sum_eq (bfr : List (Nat × Bet)) (side : Side) :
    ((payouts_of bfr side).map Prod.snd).sum =
      ((bfr.filter (fun p => p.2.side = side)).map
        (fun p => rhe (197 * p.2.amount) 100)).sum := by
  induction bfr with
  | nil => rfl
  | cons p t ih =>
    by_cases hp : p.2.side = side
    · simp only [payouts_of, List.map_cons, List.filter_cons, List.sum_cons,
        decide_eq_true_eq, if_pos hp] at ih ⊢
      omega
    · simp only [payouts_of, List.map_cons, List.filter_cons, List.sum_cons,
        decide_eq_true_eq, if_neg hp] at ih ⊢
      omega

theorem stake_split (bfr : List (Nat × Bet)) (side : Side) :
    (bfr.map (fun p => p.2.amount)).sum =
      winners_total_stake bfr side + losers_total_stake bfr side := by
  induction bfr with
  | nil => rfl
  | cons p t ih =>
    unfold winners_total_stake losers_total_stake at ih ⊢
    by_cases hp : p.2.side = side
    · rw [List.map_cons, List.sum_cons,
        List.filter_cons, if_pos (by simpa using hp),
        List.filter_cons, if_neg (by simpa using hp)]
      simp only [List.map_cons, List.sum_cons]
      omega
    · rw [List.map_cons, List.sum_cons,
        List.filter_cons, if_neg (by simpa using hp),
        List.filter_cons, if_pos (by simp [hp])]
      simp only [List.map_cons, List.sum_cons]
      omega

theorem winners_payout_le (bfr : List (Nat × Bet)) (side : Side) :
    ((payouts_of bfr side).map Prod.snd).sum ≤ 2 * winners_total_stake bfr side := by
  rw [payouts_sum_eq]
  unfold winners_total_stake
  have h1 : ((bfr.filter (fun p => p.2.side = side)).map
      (fun p => rhe (197 * p.2.amount) 100)).sum ≤
      ((bfr.filter (fun p => p.2.side = side)).map
      (fun p => 2 * p.2.amount)).sum := by
    apply List.sum_le_sum
    intro p _
    exact payout_le_twice p.2.amount
  have h2 : ((bfr.filter (fun p => p.2.side = side)).map
      (fun p => 2 * p.2.amount)).sum =
      2 * ((bfr.filter (fun p => p.2.side = side)).map (fun p => p.2.amount)).sum := by
    induction bfr.filter (fun p => p.2.side = side) with
    | nil => rfl
    | cons q t ih =>
      simp only [List.map_cons, List.sum_cons, ih]
      ring
  omega

theorem winners_profit_le (bfr : List (Nat × Bet)) (side : Side) :
    winners_profit bfr side ≤ winners_total_stake bfr side := by
  unfold winners_profit winners_total_stake
  apply List.sum_le_sum
  intro p _
  exact profit_le_stake p.2.amount

/-- C8 counterexample state: one bet of 100 on T and an empty pot, with a
plain roll of three fours resolving the round to T. -/
def c8s : State :=
  { users := [(1, defaultUser)],
    bets := [(1, [(1, { side := Side.T, amount := 100 })])],
    round := { id := 1, status := Status.opened, scheduled_roll_ts := some 60,
               forced_next := none, bias := false },
    history := [], pot := 0, withdraw_requests := [], deposit_requests := [] }

/-- C8: the claim bounds winner payouts plus the pot contribution by 1.97
times the stakes.  On c8s the single winner is paid 197 and the pot gains
29, so payouts plus pot contribution reach 226 while 1.97 times the total
stake of 100 is only 197: the claimed bound fails. -/
theorem claim_C8_counterexample :
    (close_betting_and_roll c8s (fun _ => 3) true 0).1 =
      some { id := 1, timestamp := 0, dice := [4, 4, 4], total := 12, side := Side.T,
             bets := [(1, { side := Side.T, amount := 100 })],
             payouts := [(1, 197)], pot_before := 0, pot_after := 29,
             distributed_from_pot := 0 } ∧
    ¬ (100 * (197 + (29 - 0)) ≤ 197 * 100) := by
  exact ⟨by decide, by decide⟩

/-- C8 (amended): for every bet table and resolved side, the sum of
winner payouts plus the pot contribution of the round (losing stakes plus
the rounded 30 percent cut of the rounded winner profits) is at most 2.5
times the sum of all stakes placed in the round (the factor 2.5 is tight:
two winning stakes of 1 reach it). -/
theorem claim_C8_bound (bfr : List (Nat × Bet)) (side : Side) :
    2 * (((payouts_of bfr side).map Prod.snd).sum +
          (losers_total_stake bfr side + rhe (3 * winners_profit bfr side) 10)) ≤
      5 * (bfr.map (fun p => p.2.amount)).sum := by
  have hS := winners_payout_le bfr side
  have hP := winners_profit_le bfr side
  have hC := rhe_le (3 * winners_profit bfr side) 10 (by omega)
  have hsplit := stake_split bfr side
  omega

/-- Unfolding equation of close_betting_and_roll on an open round, with
all intermediate state values spelled out. -/
theorem close_opened (s : State) (rng : Nat → Nat) (coin : Bool) (now : Nat)
    (h : s.round.status = Status.opened) :
    close_betting_and_roll s rng coin now =
      (let dice := diceFor { s.round with status := Status.closed } rng coin
       let side := resolve_side dice.sum
       let bfr := (getA s.round.id s.bets).getD []
       let s4 := (payouts_of bfr side).foldl settle_user
         { s with round := { s.round with status := Status.closed },
                  pot := s.pot + losers_total_stake bfr side + rhe (3 * winners_profit bfr side) 10 }
       let jack : Nat × State :=
         if dice.count 1 = 3 ∨ dice.count 6 = 3 then
           if winners_of bfr side = [] then (0, s4)
           else (s4.pot, { (winners_of bfr side).foldl
             (jackpot_credit bfr s4.pot (winners_total_stake bfr side) (winners_of bfr side).length) s4
             with pot := 0 })
         else (0, s4)
       let hrec : HistRec :=
         { id := s.round.id, timestamp := now, dice := dice, total := dice.sum, side := side,
           bets := bfr, payouts := payouts_of bfr side, pot_before := s.pot,
           pot_after := jack.2.pot, distributed_from_pot := jack.1 }
       (some hrec,
        { jack.2 with
          history := jack.2.history ++ [hrec],
          bets := removeA s.round.id jack.2.bets,
          round := { jack.2.round with status := Status.idle, forced_next := none } })) := by
  unfold close_betting_and_roll
  rw [if_neg (fun hn => hn h)]

/-! ### Best-streak monotonicity lemmas -/

theorem bestStreakOf_modifyA_le (l : List (Nat × UserInfo)) (k : Nat)
    (f : UserInfo → UserInfo) (hf : ∀ i, i.best_streak ≤ (f i).best_streak) (u : Nat) :
    bestStreakOf l u ≤ bestStreakOf (modifyA k f l) u := by
  unfold bestStreakOf
  by_cases hu : u = k
  · subst hu
    rw [getA_modifyA_self]
    cases getA u l with
    | none => simp
    | some i => simpa using hf i
  · rw [getA_modifyA_ne _ _ _ _ hu]

theorem bestStreakOf_modifyA_eq (l : List (Nat × UserInfo)) (k : Nat)
    (f : UserInfo → UserInfo) (hf : ∀ i, (f i).best_streak = i.best_streak) (u : Nat) :
    bestStreakOf (modifyA k f l) u = bestStreakOf l u := by
  unfold bestStreakOf
  by_cases hu : u = k
  · subst hu
    rw [getA_modifyA_self]
    cases getA u l with
    | none => simp
    | some i => simpa using hf i
  · rw [getA_modifyA_ne _ _ _ _ hu]

theorem bestStreakOf_ensure (s : State) (v u : Nat) :
    bestStreakOf (ensure_user s v).users u = bestStreakOf s.users u := by
  unfold bestStreakOf
  rw [getA_ensure_user]
  by_cases hu : u = v
  · subst hu
    cases hg : getA u s.users <;> simp [hg, defaultUser]
  · rw [if_neg hu]

theorem bestStreakOf_add_balance (s : State) (v : Nat) (a : Int) (u : Nat) :
    bestStreakOf (add_balance s v a).users u = bestStreakOf s.users u := by
  rw [show (add_balance s v a).users =
    modifyA v (fun i => { i with balance := i.balance + a }) (ensure_user s v).users from rfl]
  rw [bestStreakOf_modifyA_eq (ensure_user s v).users v
    (fun i => { i with balance := i.balance + a }) (fun i => rfl) u]
  exact bestStreakOf_ensure s v u

theorem bestStreakOf_sub_balance (s : State) (v : Nat) (a : Int) (u : Nat) :
    bestStreakOf (sub_balance s v a).users u = bestStreakOf s.users u := by
  rw [show (sub_balance s v a).users =
    modifyA v (fun i => { i with balance := i.balance - a }) (ensure_user s v).users from rfl]
  rw [bestStreakOf_modifyA_eq (ensure_user s v).users v
    (fun i => { i with balance := i.balance - a }) (fun i => rfl) u]
  exact bestStreakOf_ensure s v u

theorem bestStreakOf_settle_user (t : State) (p : Nat × Nat) (u : Nat) :
    bestStreakOf t.users u ≤ bestStreakOf (settle_user t p).users u := by
  unfold settle_user
  by_cases hpos : 0 < p.2
  · rw [if_pos hpos]
    refine le_trans ?_
      (bestStreakOf_modifyA_le
        (ensure_user (add_balance t p.1 (p.2 : Int)) p.1).users p.1 win_update ?_ u)
    · rw [bestStreakOf_ensure, bestStreakOf_add_balance]
    · intro i
      unfold win_update
      exact le_max_left _ _
  · rw [if_neg hpos]
    have heq : bestStreakOf (modifyA p.1 lose_update (ensure_user t p.1).users) u =
        bestStreakOf t.users u := by
      rw [bestStreakOf_modifyA_eq (ensure_user t p.1).users p.1 lose_update (fun i => rfl) u]
      exact bestStreakOf_ensure t p.1 u
    exact le_of_eq heq.symm

theorem bestStreakOf_foldl_settle (l : List (Nat × Nat)) (t : State) (u : Nat) :
    bestStreakOf t.users u ≤ bestStreakOf ((l.foldl settle_user t)).users u := by
  induction l generalizing t with
  | nil => exact le_rfl
  | cons p tl ih =>
    rw [List.foldl_cons]
    exact le_trans (bestStreakOf_settle_user t p u) (ih (settle_user t p))

theorem bestStreakOf_foldl_settle_from (l : List (Nat × Nat)) (t : State) (u : Nat)
    (w : List (Nat × UserInfo)) (hw : w = t.users) :
    bestStreakOf w u ≤ bestStreakOf ((l.foldl settle_user t)).users u :=
  hw ▸ bestStreakOf_foldl_settle l t u

theorem bestStreakOf_jackpot_credit (bfr : List (Nat × Bet)) (pa tws n : Nat)
    (t : State) (w u : Nat) :
    bestStreakOf (jackpot_credit bfr pa tws n t w).users u = bestStreakOf t.users u := by
  unfold jackpot_credit
  exact bestStreakOf_add_balance t w _ u

theorem bestStreakOf_foldl_jackpot (bfr : List (Nat × Bet)) (pa tws n : Nat)
    (ws : List Nat) (t : State) (u : Nat) :
    bestStreakOf ((ws.foldl (jackpot_credit bfr pa tws n) t)).users u =
      bestStreakOf t.users u := by
  induction ws generalizing t with
  | nil => rfl
  | cons w tl ih =>
    rw [List.foldl_cons, ih, bestStreakOf_jackpot_credit]

theorem bestStreakOf_close (s : State) (rng : Nat → Nat) (coin : Bool) (now : Nat) (u : Nat) :
    bestStreakOf s.users u ≤
      bestStreakOf ((close_betting_and_roll s rng coin now).2).users u := by
  by_cases hs : s.round.status = Status.opened
  · rw [close_opened s rng coin now hs]
    simp only
    split
    · split
      · dsimp only
        exact bestStreakOf_foldl_settle_from _ _ u _ rfl
      · dsimp only
        refine le_trans (bestStreakOf_foldl_settle_from _ _ u _ ?_)
          (le_of_eq (bestStreakOf_foldl_jackpot _ _ _ _ _ _ u).symm)
        rfl
    · dsimp only
      exact bestStreakOf_foldl_settle_from _ _ u _ rfl
  · rw [close_not_opened s rng coin now hs]

theorem bestStreakOf_give_first_bonus (s : State) (u v : Nat) :
    bestStreakOf ((give_first_bonus_if_needed s u).2).users v = bestStreakOf s.users v := by
  unfold give_first_bonus_if_needed
  dsimp only
  split
  next info heq =>
    split
    next hb =>
      dsimp only
      exact bestStreakOf_ensure s u v
    next hb =>
      dsimp only
      rw [bestStreakOf_modifyA_eq (ensure_user s u).users u
        (fun i => { i with balance := i.balance + INITIAL_BONUS, first_bonus_given := true })
        (fun i => rfl) v]
      exact bestStreakOf_ensure s u v
  next heq =>
    dsimp only
    exact bestStreakOf_ensure s u v

theorem bestStreakOf_handle_bet (s : State) (uid : Nat) (side : Side) (amt : Nat) (v : Nat) :
    bestStreakOf ((handle_bet_command s uid side amt).2).users v = bestStreakOf s.users v := by
  by_cases hs : s.round.status = Status.opened
  · rw [handle_bet_opened s uid side amt hs]
    by_cases h1 : ((getA uid (ensure_user s uid).users).getD defaultUser).first_bonus_given = true
        ∧ get_balance (ensure_user s uid) uid = INITIAL_BONUS ∧ MAX_BONUS_BET < amt
    · rw [if_pos h1]
      exact bestStreakOf_ensure s uid v
    · rw [if_neg h1]
      by_cases h2 : amt = 0
      · rw [if_pos h2]
        exact bestStreakOf_ensure s uid v
      · rw [if_neg h2]
        by_cases h3 : get_balance (ensure_user s uid) uid < (amt : Int)
        · rw [if_pos h3]
          exact bestStreakOf_ensure s uid v
        · rw [if_neg h3]
          dsimp only
          rw [bestStreakOf_sub_balance]
          exact bestStreakOf_ensure s uid v
  · rw [handle_bet_not_opened s uid side amt hs]

theorem bestStreakOf_withdraw_cmd (s : State) (uid amt rid v : Nat) :
    bestStreakOf ((withdraw_cmd s uid amt rid).2).users v = bestStreakOf s.users v := by
  unfold withdraw_cmd
  by_cases h1 : amt < 100000
  · rw [if_pos h1]
  · rw [if_neg h1]
    dsimp only
    by_cases h2 : get_balance (ensure_user s uid) uid < (amt : Int)
    · rw [if_pos h2]
      exact bestStreakOf_ensure s uid v
    · rw [if_neg h2]
      dsimp only
      exact bestStreakOf_ensure s uid v

theorem bestStreakOf_decide_deposit (s : State) (rid admin : Nat) (b : Bool) (v : Nat) :
    bestStreakOf (decide_deposit s rid admin b).users v = bestStreakOf s.users v := by
  unfold decide_deposit
  dsimp only
  split
  · rfl
  next r heq =>
    split
    next hb =>
      rw [bestStreakOf_add_balance]
    next hb =>
      rfl

theorem bestStreakOf_decide_withdraw (s : State) (rid admin : Nat) (b : Bool) (v : Nat) :
    bestStreakOf (decide_withdraw s rid admin b).users v = bestStreakOf s.users v := by
  unfold decide_withdraw
  dsimp only
  split
  · rfl
  next r heq =>
    split
    next hb =>
      rw [bestStreakOf_sub_balance]
    next hb =>
      rfl

/-- C10: best_streak is monotonically non-decreasing under every operation
of the program.  Settlement only writes max(previous best, incremented
streak) for winners and leaves it alone for losers; every other operation
(losing, streak reset, deposit, withdraw, admin credit, configuration
changes, round opening, user creation) never writes the field at all. -/
theorem claim_C10_best_streak_monotone (op : Op) (s : State) (u : Nat) :
    bestStreakOf s.users u ≤ bestStreakOf ((applyOp op s)).users u := by
  cases op with
  | startCmd uid =>
    show bestStreakOf s.users u ≤ bestStreakOf ((give_first_bonus_if_needed (ensure_user s uid) uid).2).users u
    rw [bestStreakOf_give_first_bonus, bestStreakOf_ensure]
  | bet uid side amt =>
    show bestStreakOf s.users u ≤ bestStreakOf ((handle_bet_command s uid side amt).2).users u
    rw [bestStreakOf_handle_bet]
  | openRound now =>
    exact le_of_eq rfl
  | roll rng coin now =>
    exact bestStreakOf_close s rng coin now u
  | depositReq uid amt rid =>
    exact le_of_eq rfl
  | withdrawReq uid amt rid =>
    show bestStreakOf s.users u ≤ bestStreakOf ((withdraw_cmd s uid amt rid).2).users u
    rw [bestStreakOf_withdraw_cmd]
  | decideDeposit rid admin b =>
    show bestStreakOf s.users u ≤ bestStreakOf (decide_deposit s rid admin b).users u
    rw [bestStreakOf_decide_deposit]
  | decideWithdraw rid admin b =>
    show bestStreakOf s.users u ≤ bestStreakOf (decide_withdraw s rid admin b).users u
    rw [bestStreakOf_decide_withdraw]
  | credit uid amt =>
    show bestStreakOf s.users u ≤ bestStreakOf (add_balance s uid amt).users u
    rw [bestStreakOf_add_balance]
  | setNext v => exact le_of_eq rfl
  | setBias b => exact le_of_eq rfl

/-! ### Conservation of balances plus recorded stakes under bet placement -/

theorem balSum_modifyA_sub (l : List (Nat × UserInfo)) (k : Nat) (a : Int) :
    ((modifyA k (fun i => { i with balance := i.balance - a }) l).map
      (fun p => p.2.balance)).sum =
      (l.map (fun p => p.2.balance)).sum - (if (getA k l).isSome then a else 0) := by
  induction l with
  | nil => simp [modifyA, getA]
  | cons p t ih =>
    by_cases hp : p.1 = k
    · simp only [modifyA, if_pos hp, getA, List.map_cons, List.sum_cons, Option.isSome_some,
        if_true]
      omega
    · simp only [modifyA, if_neg hp, getA, List.map_cons, List.sum_cons, ih]
      by_cases hg : (getA k t).isSome
      · rw [if_pos hg]
        omega
      · rw [if_neg hg]
        omega

theorem totalBal_ensure (s : State) (u : Nat) : totalBal (ensure_user s u) = totalBal s := by
  unfold totalBal ensure_user
  split
  · rfl
  · simp [defaultUser]

theorem totalBal_sub_balance (s : State) (u : Nat) (a : Int) :
    totalBal (sub_balance s u a) = totalBal s - a := by
  rw [show totalBal (sub_balance s u a) =
    (((modifyA u (fun i => { i with balance := i.balance - a })
      (ensure_user s u).users)).map (fun p => p.2.balance)).sum from rfl]
  rw [balSum_modifyA_sub]
  have hsome : (getA u (ensure_user s u).users).isSome := by
    rw [getA_ensure_user]
    simp
  rw [if_pos hsome]
  rw [show ((ensure_user s u).users.map (fun p => p.2.balance)).sum =
    totalBal (ensure_user s u) from rfl]
  rw [totalBal_ensure]

theorem betSum_ensure (s : State) (u : Nat) : betSum (ensure_user s u) = betSum s := by
  unfold betSum
  rw [ensure_user_bets, ensure_user_round]

theorem amount_sum_setA_absent (cur : List (Nat × Bet)) (uid : Nat) (b : Bet)
    (h : getA uid cur = none) :
    ((setA uid b cur).map (fun p => p.2.amount)).sum =
      (cur.map (fun p => p.2.amount)).sum + b.amount := by
  induction cur with
  | nil => simp [setA]
  | cons p t ih =>
    simp only [getA] at h
    by_cases hp : p.1 = uid
    · rw [if_pos hp] at h
      cases h
    · rw [if_neg hp] at h
      simp only [setA, if_neg hp, List.map_cons, List.sum_cons, ih h]
      omega

theorem handle_bet_round (s : State) (uid : Nat) (side : Side) (amt : Nat) :
    ((handle_bet_command s uid side amt).2).round = s.round := by
  by_cases hs : s.round.status = Status.opened
  · rw [handle_bet_opened s uid side amt hs]
    by_cases h1 : ((getA uid (ensure_user s uid).users).getD defaultUser).first_bonus_given = true
        ∧ get_balance (ensure_user s uid) uid = INITIAL_BONUS ∧ MAX_BONUS_BET < amt
    · rw [if_pos h1]
      exact ensure_user_round s uid
    · rw [if_neg h1]
      by_cases h2 : amt = 0
      · rw [if_pos h2]
        exact ensure_user_round s uid
      · rw [if_neg h2]
        by_cases h3 : get_balance (ensure_user s uid) uid < (amt : Int)
        · rw [if_pos h3]
          exact ensure_user_round s uid
        · rw [if_neg h3]
          dsimp only
          rw [sub_balance_round, ensure_user_round]
  · rw [handle_bet_not_opened s uid side amt hs]

theorem handle_bet_conserve (s : State) (uid : Nat) (side : Side) (amt : Nat)
    (hfree : getA uid ((getA s.round.id s.bets).getD []) = none) :
    totalBal (handle_bet_command s uid side amt).2 +
      ((betSum (handle_bet_command s uid side amt).2 : Nat) : Int) =
      totalBal s + ((betSum s : Nat) : Int) := by
  by_cases hs : s.round.status = Status.opened
  · rw [handle_bet_opened s uid side amt hs]
    by_cases h1 : ((getA uid (ensure_user s uid).users).getD defaultUser).first_bonus_given = true
        ∧ get_balance (ensure_user s uid) uid = INITIAL_BONUS ∧ MAX_BONUS_BET < amt
    · rw [if_pos h1]
      dsimp only
      rw [totalBal_ensure, betSum_ensure]
    · rw [if_neg h1]
      by_cases h2 : amt = 0
      · rw [if_pos h2]
        dsimp only
        rw [totalBal_ensure, betSum_ensure]
      · rw [if_neg h2]
        by_cases h3 : get_balance (ensure_user s uid) uid < (amt : Int)
        · rw [if_pos h3]
          dsimp only
          rw [totalBal_ensure, betSum_ensure]
        · rw [if_neg h3]
          dsimp only
          have htot : totalBal
              { sub_balance (ensure_user s uid) uid (amt : Int) with
                bets := setA s.round.id
                  (setA uid { side := side, amount := amt }
                    ((getA s.round.id (sub_balance (ensure_user s uid) uid (amt : Int)).bets).getD []))
                  (sub_balance (ensure_user s uid) uid (amt : Int)).bets } =
              totalBal s - amt := by
            rw [show totalBal
                { sub_balance (ensure_user s uid) uid (amt : Int) with
                  bets := setA s.round.id
                    (setA uid { side := side, amount := amt }
                      ((getA s.round.id (sub_balance (ensure_user s uid) uid (amt : Int)).bets).getD []))
                    (sub_balance (ensure_user s uid) uid (amt : Int)).bets } =
              totalBal (sub_balance (ensure_user s uid) uid (amt : Int)) from rfl]
            rw [totalBal_sub_balance, totalBal_ensure]
          rw [htot]
          have hbets : (sub_balance (ensure_user s uid) uid (amt : Int)).bets = s.bets := by
            rw [sub_balance_bets, ensure_user_bets]
          have hround : (sub_balance (ensure_user s uid) uid (amt : Int)).round = s.round := by
            rw [sub_balance_round, ensure_user_round]
          have hsum : betSum
              { sub_balance (ensure_user s uid) uid (amt : Int) with
                bets := setA s.round.id
                  (setA uid { side := side, amount := amt }
                    ((getA s.round.id (sub_balance (ensure_user s uid) uid (amt : Int)).bets).getD []))
                  (sub_balance (ensure_user s uid) uid (amt : Int)).bets } =
              betSum s + amt := by
            unfold betSum
            rw [show ({ sub_balance (ensure_user s uid) uid (amt : Int) with
                bets := setA s.round.id
                  (setA uid { side := side, amount := amt }
                    ((getA s.round.id (sub_balance (ensure_user s uid) uid (amt : Int)).bets).getD []))
                  (sub_balance (ensure_user s uid) uid (amt : Int)).bets } : State).round =
              (sub_balance (ensure_user s uid) uid (amt : Int)).round from rfl]
            rw [hround, hbets]
            rw [show ({ sub_balance (ensure_user s uid) uid (amt : Int) with
                bets := setA s.round.id
                  (setA uid { side := side, amount := amt }
                    ((getA s.round.id s.bets).getD []))
                  s.bets } : State).bets =
              setA s.round.id (setA uid { side := side, amount := amt }
                ((getA s.round.id s.bets).getD [])) s.bets from rfl]
            rw [getA_setA_self]
            rw [Option.getD_some]
            exact amount_sum_setA_absent ((getA s.round.id s.bets).getD [])
              uid { side := side, amount := amt } hfree
          rw [hsum]
          push_cast
          ring
  · rw [handle_bet_not_opened s uid side amt hs]

theorem handle_bet_free_keys (s : State) (uid : Nat) (side : Side) (amt : Nat) (v : Nat)
    (hv : v ≠ uid)
    (hfree : getA v ((getA s.round.id s.bets).getD []) = none) :
    getA v ((getA ((handle_bet_command s uid side amt).2).round.id
      ((handle_bet_command s uid side amt).2).bets).getD []) = none := by
  rw [handle_bet_round]
  by_cases hs : s.round.status = Status.opened
  · rw [handle_bet_opened s uid side amt hs]
    by_cases h1 : ((getA uid (ensure_user s uid).users).getD defaultUser).first_bonus_given = true
        ∧ get_balance (ensure_user s uid) uid = INITIAL_BONUS ∧ MAX_BONUS_BET < amt
    · rw [if_pos h1]
      dsimp only
      rw [ensure_user_bets]
      exact hfree
    · rw [if_neg h1]
      by_cases h2 : amt = 0
      · rw [if_pos h2]
        dsimp only
        rw [ensure_user_bets]
        exact hfree
      · rw [if_neg h2]
        by_cases h3 : get_balance (ensure_user s uid) uid < (amt : Int)
        · rw [if_pos h3]
          dsimp only
          rw [ensure_user_bets]
          exact hfree
        · rw [if_neg h3]
          dsimp only
          have hbets : (sub_balance (ensure_user s uid) uid (amt : Int)).bets = s.bets := by
            rw [sub_balance_bets, ensure_user_bets]
          rw [hbets, getA_setA_self, Option.getD_some,
            getA_setA_ne uid v ({ side := side, amount := amt } : Bet)
              ((getA s.round.id s.bets).getD []) hv]
          exact hfree
  · rw [handle_bet_not_opened s uid side amt hs]
    exact hfree

theorem applyBets_conserve (cmds : List (Nat × Side × Nat)) : ∀ (s : State),
    (cmds.map (fun c => c.1)).Nodup →
    (∀ c ∈ cmds, getA c.1 ((getA s.round.id s.bets).getD []) = none) →
    totalBal (applyBets s cmds) + ((betSum (applyBets s cmds) : Nat) : Int) =
      totalBal s + ((betSum s : Nat) : Int) := by
  induction cmds with
  | nil =>
    intro s _ _
    rfl
  | cons c rest ih =>
    intro s hnd hfree
    simp only [List.map_cons, List.nodup_cons] at hnd
    rw [show applyBets s (c :: rest) =
      applyBets (handle_bet_command s c.1 c.2.1 c.2.2).2 rest from rfl]
    have hstep := handle_bet_conserve s c.1 c.2.1 c.2.2 (hfree c (List.mem_cons_self c rest))
    have hrest := ih (handle_bet_command s c.1 c.2.1 c.2.2).2 hnd.2 ?_
    · rw [hrest, hstep]
    · intro c2 hc2
      have hvne : c2.1 ≠ c.1 := by
        intro he
        exact hnd.1 (he ▸ (List.mem_map.mpr ⟨c2, hc2, rfl⟩))
      exact handle_bet_free_keys s c.1 c.2.1 c.2.2 c2.1 hvne
        (hfree c2 (List.mem_cons_of_mem c hc2))

/-- C1 counterexample state: one user with balance 10000 and an open
round with an empty bet table. -/
def c1s : State :=
  { users := [(1, { balance := 10000, first_bonus_given := false, streak := 0, best_streak := 0 })],
    bets := [(1, [])],
    round := { id := 1, status := Status.opened, scheduled_roll_ts := some 60,
               forced_next := none, bias := false },
    history := [], pot := 0, withdraw_requests := [], deposit_requests := [] }

/-- C1: the claim says total debits equal the recorded stakes, in
particular when a user re-bets in the same round.  In fact when user 1
bets 100 and then 200 in the same round, 300 is debited but only 200 is
recorded: the overwritten first stake is never refunded. -/
theorem claim_C1_counterexample :
    totalBal c1s - totalBal (applyBets c1s [(1, Side.T, 100), (1, Side.T, 200)]) = 300 ∧
    betSum (applyBets c1s [(1, Side.T, 100), (1, Side.T, 200)]) = 200 ∧
    ¬ (totalBal c1s - totalBal (applyBets c1s [(1, Side.T, 100), (1, Side.T, 200)]) =
        ((betSum (applyBets c1s [(1, Side.T, 100), (1, Side.T, 200)]) : Nat) : Int)) := by
  refine ⟨by decide, by decide, by decide⟩

/-- C1 (amended): for every sequence of PlaceBet calls during a single
Open round in which each user appears at most once, the total amount
debited from user balances equals the sum of the stakes recorded in the
rounds bet set; a second bet of the same user overwrites the record
without refunding the first stake, so with repeated bettors the total
debited exceeds the recorded sum by the overwritten stakes. -/
theorem claim_C1_conservation (cmds : List (Nat × Side × Nat)) (s : State)
    (hnd : (cmds.map (fun c => c.1)).Nodup)
    (hempty : (getA s.round.id s.bets).getD [] = ([] : List (Nat × Bet))) :
    totalBal s - totalBal (applyBets s cmds) =
      ((betSum (applyBets s cmds) : Nat) : Int) := by
  have h := applyBets_conserve cmds s hnd (fun c _ => by rw [hempty]; rfl)
  have h0 : betSum s = 0 := by
    unfold betSum
    rw [hempty]
    rfl
  rw [h0] at h
  omega

/-- C1 witness state: two users able to cover their stakes. -/
def c1w : State :=
  { users := [(1, { balance := 10000, first_bonus_given := false, streak := 0, best_streak := 0 }),
              (2, { balance := 50, first_bonus_given := false, streak := 0, best_streak := 0 })],
    bets := [(1, [])],
    round := { id := 1, status := Status.opened, scheduled_roll_ts := some 60,
               forced_next := none, bias := false },
    history := [], pot := 0, withdraw_requests := [], deposit_requests := [] }

/-- C1 witness: two distinct users bet 100 and 50; the debited total and
the recorded stakes both come to 150. -/
theorem claim_C1_conservation_witness :
    totalBal c1w - totalBal (applyBets c1w [(1, Side.T, 100), (2, Side.X, 50)]) =
      ((betSum (applyBets c1w [(1, Side.T, 100), (2, Side.X, 50)]) : Nat) : Int) ∧
    betSum (applyBets c1w [(1, Side.T, 100), (2, Side.X, 50)]) = 150 :=
  ⟨claim_C1_conservation [(1, Side.T, 100), (2, Side.X, 50)] c1w (by decide) (by decide),
   by decide⟩

theorem close_some_opened (s : State) (rng : Nat → Nat) (coin : Bool) (now : Nat)
    (hrec : HistRec) (s2 : State)
    (h : close_betting_and_roll s rng coin now = (some hrec, s2)) :
    s.round.status = Status.opened := by
  by_contra hs
  rw [close_not_opened s rng coin now hs] at h
  exact Option.noConfusion (congrArg Prod.fst h)

/-- C2: in every resolved round the recorded payout of each bettor is
round(stake times 1.97) when the bet is on the resolved side and 0
otherwise, and during settlement, before any jackpot drain, the pot
grows by the losing stakes plus round(0.30 times the sum over winners of
round(stake times 0.97)): when the jackpot drains, that pre-drain value
is the recorded distributed_from_pot, otherwise it is the recorded
pot_after. -/
theorem claim_C2_settlement (s : State) (rng : Nat → Nat) (coin : Bool) (now : Nat)
    (hrec : HistRec) (s2 : State)
    (h : close_betting_and_roll s rng coin now = (some hrec, s2))
    (hnd : (hrec.bets.map Prod.fst).Nodup) :
    (∀ u b, (u, b) ∈ hrec.bets →
       getA u hrec.payouts =
         some (if b.side = hrec.side then rhe (197 * b.amount) 100 else 0)) ∧
    (if (hrec.dice.count 1 = 3 ∨ hrec.dice.count 6 = 3) ∧
        winners_of hrec.bets hrec.side ≠ []
     then hrec.distributed_from_pot else hrec.pot_after) =
      hrec.pot_before + losers_total_stake hrec.bets hrec.side +
        rhe (3 * winners_profit hrec.bets hrec.side) 10 := by
  have hs := close_some_opened s rng coin now hrec s2 h
  rw [close_opened s rng coin now hs] at h
  simp only at h
  rw [Prod.mk.injEq, Option.some.injEq] at h
  obtain ⟨h1, h2⟩ := h
  subst h1
  dsimp only at hnd ⊢
  constructor
  · intro u b hm
    exact getA_of_nodup_payouts _ _ u b hnd hm
  · by_cases hd : (diceFor { s.round with status := Status.closed } rng coin).count 1 = 3 ∨
        (diceFor { s.round with status := Status.closed } rng coin).count 6 = 3
    · by_cases hw : winners_of ((getA s.round.id s.bets).getD [])
          (resolve_side (diceFor { s.round with status := Status.closed } rng coin).sum) = []
      · rw [if_neg (fun hc => hc.2 hw), if_pos hd, if_pos hw]
        dsimp only
        rw [foldl_settle_user_pot]
      · rw [if_pos ⟨hd, hw⟩, if_pos hd, if_neg hw]
        dsimp only
        rw [foldl_settle_user_pot]
    · rw [if_neg (fun hc => hd hc.1), if_neg hd]
      dsimp only
      rw [foldl_settle_user_pot]

/-- C2 witness state: one bet of 100 on T, pot 0, and a plain roll of
three fours. -/
def c2s : State :=
  { users := [(1, defaultUser)],
    bets := [(5, [(1, { side := Side.T, amount := 100 })])],
    round := { id := 5, status := Status.opened, scheduled_roll_ts := some 60,
               forced_next := none, bias := false },
    history := [], pot := 0, withdraw_requests := [], deposit_requests := [] }

/-- C2 witness: on c2s the winner is recorded with payout
round(100 x 1.97) = 197 and the pot ends at 0 + 0 + round(0.30 x 97) = 29. -/
theorem claim_C2_settlement_witness :
    getA 1 (((close_betting_and_roll c2s (fun _ => 3) true 0).1.getD
      { id := 0, timestamp := 0, dice := [], total := 0, side := Side.T, bets := [],
        payouts := [], pot_before := 0, pot_after := 0, distributed_from_pot := 0 }).payouts) =
      some (rhe (197 * 100) 100) ∧
    ((close_betting_and_roll c2s (fun _ => 3) true 0).1.getD
      { id := 0, timestamp := 0, dice := [], total := 0, side := Side.T, bets := [],
        payouts := [], pot_before := 0, pot_after := 0, distributed_from_pot := 0 }).pot_after = 29 := by
  have h : close_betting_and_roll c2s (fun _ => 3) true 0 =
      (some ((close_betting_and_roll c2s (fun _ => 3) true 0).1.getD
        { id := 0, timestamp := 0, dice := [], total := 0, side := Side.T, bets := [],
          payouts := [], pot_before := 0, pot_after := 0, distributed_from_pot := 0 }),
       (close_betting_and_roll c2s (fun _ => 3) true 0).2) := by decide
  have hthm := claim_C2_settlement c2s (fun _ => 3) true 0 _ _ h (by decide)
  constructor
  · have h1 := hthm.1 1 { side := Side.T, amount := 100 } (by decide)
    exact h1.trans (by decide)
  · have h2 := hthm.2
    rw [if_neg (by decide)] at h2
    exact h2.trans (by decide)

/-! ### Jackpot distribution lemmas -/

theorem payouts_of_keys (bfr : List (Nat × Bet)) (side : Side) :
    (payouts_of bfr side).map Prod.fst = bfr.map Prod.fst := by
  unfold payouts_of
  rw [List.map_map]
  rfl

theorem mem_payouts_of (bfr : List (Nat × Bet)) (side : Side) (u : Nat) (b : Bet)
    (hm : (u, b) ∈ bfr) :
    (u, if b.side = side then rhe (197 * b.amount) 100 else 0) ∈ payouts_of bfr side :=
  List.mem_map.mpr ⟨(u, b), hm, rfl⟩

theorem get_balance_foldl_settle_payout (bfr : List (Nat × Bet)) (side : Side) (u : Nat)
    (b : Bet) (t : State) (hnd : (bfr.map Prod.fst).Nodup) (hm : (u, b) ∈ bfr) :
    get_balance ((payouts_of bfr side).foldl settle_user t) u =
      get_balance t u + (if b.side = side then (rhe (197 * b.amount) 100 : Int) else 0) := by
  rw [get_balance_foldl_settle_user]
  have hk : ((payouts_of bfr side).map Prod.fst).Nodup := by
    rw [payouts_of_keys]
    exact hnd
  rw [filter_key_eq_of_nodup (payouts_of bfr side) u _ hk (mem_payouts_of bfr side u b hm)]
  simp only [List.map_cons, List.map_nil, List.sum_cons, List.sum_nil, add_zero]
  congr 1
  split <;> simp

theorem winners_of_nodup (bfr : List (Nat × Bet)) (side : Side)
    (hnd : (bfr.map Prod.fst).Nodup) : (winners_of bfr side).Nodup := by
  unfold winners_of
  have hnd2 : (bfr.map (fun p : Nat × Bet => p.1)).Nodup := hnd
  exact hnd2.sublist (List.Sublist.map (fun p => p.1) (List.filter_sublist bfr))

theorem mem_winners_of (bfr : List (Nat × Bet)) (side : Side) (u : Nat) (b : Bet)
    (hm : (u, b) ∈ bfr) (hside : b.side = side) : u ∈ winners_of bfr side := by
  unfold winners_of
  exact List.mem_map.mpr ⟨(u, b), List.mem_filter.mpr ⟨hm, by simp [hside]⟩, rfl⟩

theorem winners_total_stake_pos (bfr : List (Nat × Bet)) (side : Side) (u : Nat) (b : Bet)
    (hm : (u, b) ∈ bfr) (hside : b.side = side) (hamt : 1 ≤ b.amount) :
    0 < winners_total_stake bfr side := by
  unfold winners_total_stake
  have hmm : b.amount ∈ (bfr.filter (fun p => p.2.side = side)).map (fun p => p.2.amount) :=
    List.mem_map.mpr ⟨(u, b), List.mem_filter.mpr ⟨hm, by simp [hside]⟩, rfl⟩
  have hle := List.le_sum_of_mem hmm
  omega

/-- C3: when the dice come up triple-1 or triple-6 and there is at least
one winner, the pot ends at exactly 0 and the drained amount (the pot
after the round contributions) is credited to each winner proportionally
to the winner stake, rounded per winner; in every other resolved round,
including a triple round with no winners, the jackpot logic leaves the
pot at exactly the value produced by the round contributions. -/
theorem claim_C3_jackpot (s : State) (rng : Nat → Nat) (coin : Bool) (now : Nat)
    (hrec : HistRec) (s2 : State)
    (h : close_betting_and_roll s rng coin now = (some hrec, s2))
    (hnd : (hrec.bets.map Prod.fst).Nodup)
    (hpos : ∀ p ∈ hrec.bets, 1 ≤ p.2.amount) :
    ((hrec.dice.count 1 = 3 ∨ hrec.dice.count 6 = 3) ∧
        winners_of hrec.bets hrec.side ≠ [] →
      s2.pot = 0 ∧ hrec.pot_after = 0 ∧
      ∀ u b, (u, b) ∈ hrec.bets → b.side = hrec.side →
        get_balance s2 u = get_balance s u + (rhe (197 * b.amount) 100 : Int) +
          (rhe (hrec.distributed_from_pot * b.amount)
            (winners_total_stake hrec.bets hrec.side) : Int)) ∧
    (¬ ((hrec.dice.count 1 = 3 ∨ hrec.dice.count 6 = 3) ∧
        winners_of hrec.bets hrec.side ≠ []) →
      s2.pot = hrec.pot_before + losers_total_stake hrec.bets hrec.side +
        rhe (3 * winners_profit hrec.bets hrec.side) 10 ∧
      s2.pot = hrec.pot_after) := by
  have hs := close_some_opened s rng coin now hrec s2 h
  rw [close_opened s rng coin now hs] at h
  simp only at h
  rw [Prod.mk.injEq, Option.some.injEq] at h
  obtain ⟨h1, h2⟩ := h
  subst h1
  subst h2
  dsimp only at hnd hpos ⊢
  constructor
  · rintro ⟨hd, hw⟩
    rw [if_pos hd, if_neg hw]
    refine ⟨rfl, rfl, ?_⟩
    intro u b hm hside
    dsimp only
    set BFR := (getA s.round.id s.bets).getD [] with hBFR
    set SIDE := resolve_side
      (diceFor { s.round with status := Status.closed } rng coin).sum with hSIDE
    set S3 := { s with
      round := { s.round with status := Status.closed },
      pot := s.pot + losers_total_stake BFR SIDE +
        rhe (3 * winners_profit BFR SIDE) 10 } with hS3
    set S4 := (payouts_of BFR SIDE).foldl settle_user S3 with hS4
    set WS := winners_of BFR SIDE with hWS
    set TWS := winners_total_stake BFR SIDE with hTWS
    have hmW : u ∈ WS := mem_winners_of BFR SIDE u b hm hside
    have hndW : WS.Nodup := winners_of_nodup BFR SIDE hnd
    have hcnt : WS.count u = 1 := List.count_eq_one_of_mem hndW hmW
    have hget : getA u BFR = some b := getA_of_nodup_mem BFR u b hnd hm
    have htws : 0 < TWS := winners_total_stake_pos BFR SIDE u b hm hside (hpos (u, b) hm)
    have hb5 := get_balance_foldl_jackpot BFR S4.pot TWS WS.length WS S4 u
    simp only [hget, Option.getD_some] at hb5
    rw [hcnt] at hb5
    simp only [Nat.cast_one, one_mul] at hb5
    simp only [jack_share, if_pos htws] at hb5
    have hb4 := get_balance_foldl_settle_payout BFR SIDE u b S3 hnd hm
    rw [if_pos hside] at hb4
    rw [← hS4] at hb4
    rw [hb4] at hb5
    rw [show get_balance S3 u = get_balance s u from rfl] at hb5
    exact hb5
  · intro hcond
    by_cases hd : (diceFor { s.round with status := Status.closed } rng coin).count 1 = 3 ∨
        (diceFor { s.round with status := Status.closed } rng coin).count 6 = 3
    · have hw : winners_of ((getA s.round.id s.bets).getD [])
          (resolve_side (diceFor { s.round with status := Status.closed } rng coin).sum) = [] := by
        by_contra hw2
        exact hcond ⟨hd, hw2⟩
      rw [if_pos hd, if_pos hw]
      constructor
      · dsimp only
        rw [foldl_settle_user_pot]
      · rfl
    · rw [if_neg hd]
      constructor
      · dsimp only
        rw [foldl_settle_user_pot]
      · rfl

/-- C3 witness state: one bet of 100 on X, pot 500, and a roll of three
ones (total 3, side X, jackpot condition met with one winner). -/
def c3s : State :=
  { users := [(1, defaultUser)],
    bets := [(5, [(1, { side := Side.X, amount := 100 })])],
    round := { id := 5, status := Status.opened, scheduled_roll_ts := some 60,
               forced_next := none, bias := false },
    history := [], pot := 500, withdraw_requests := [], deposit_requests := [] }

/-- C3 witness: on c3s the pot (500 + 0 losing stakes + 29 cut = 529)
drains to 0 and the sole winner receives the normal payout plus the whole
drained pot as the proportional share. -/
theorem claim_C3_jackpot_witness :
    ((close_betting_and_roll c3s (fun _ => 0) true 0).2).pot = 0 ∧
    get_balance ((close_betting_and_roll c3s (fun _ => 0) true 0).2) 1 =
      get_balance c3s 1 + (rhe (197 * 100) 100 : Int) +
      (rhe (((close_betting_and_roll c3s (fun _ => 0) true 0).1.getD
          { id := 0, timestamp := 0, dice := [], total := 0, side := Side.T, bets := [],
            payouts := [], pot_before := 0, pot_after := 0,
            distributed_from_pot := 0 }).distributed_from_pot * 100)
        (winners_total_stake
          ((close_betting_and_roll c3s (fun _ => 0) true 0).1.getD
            { id := 0, timestamp := 0, dice := [], total := 0, side := Side.T, bets := [],
              payouts := [], pot_before := 0, pot_after := 0,
              distributed_from_pot := 0 }).bets
          ((close_betting_and_roll c3s (fun _ => 0) true 0).1.getD
            { id := 0, timestamp := 0, dice := [], total := 0, side := Side.T, bets := [],
              payouts := [], pot_before := 0, pot_after := 0,
              distributed_from_pot := 0 }).side) : Int) := by
  have h : close_betting_and_roll c3s (fun _ => 0) true 0 =
      (some ((close_betting_and_roll c3s (fun _ => 0) true 0).1.getD
        { id := 0, timestamp := 0, dice := [], total := 0, side := Side.T, bets := [],
          payouts := [], pot_before := 0, pot_after := 0, distributed_from_pot := 0 }),
       (close_betting_and_roll c3s (fun _ => 0) true 0).2) := by decide
  have hthm := claim_C3_jackpot c3s (fun _ => 0) true 0 _ _ h (by decide) (by decide)
  have hj := hthm.1 ⟨by decide, by decide⟩
  exact ⟨hj.1, hj.2.2 1 { side := Side.X, amount := 100 } (by decide) (by decide)⟩

end Bot

